import Mathlib

/-!
# LMS application state store

A shallow embedding of the reducer of `src/context/LMSContext.jsx` (the
application state store of the learning-management console) together with the
callers that build its payloads, the quiz grading of
`src/components/quizzes/QuizManager.jsx`, the course import of
`src/components/courses/CourseBuilder.jsx` and the start-up `loadState`, with
theorems about the cascades on deletion, the enrollment merge, quiz-result
overwrite, certificate upsert, grading, import and load.

Modelling conventions.

* Identifiers and timestamps are JavaScript strings, modelled by `String`;
  `===` / `!==` on them is decidable equality.
* A JavaScript array is a `List`; `filter`, `map`, `find` are `List.filter`,
  `List.map`, `List.find?`; `[...xs, x]` is `xs ++ [x]`; `findIndex` is
  `findIndex` below (an `Int`, `-1` when nothing matches); the assignment
  `copy[i] = x` on a fresh copy is `List.set`.
* `new Set(ids).has(x)` is membership of `x` in the list `ids`.
* The enrollment actions build `{ ...existing, ...payload }`, where a field the
  payload does not carry keeps the value of `existing`.  To express that, every
  field of an `Enrollment` is an `Option` (`none`: the object has no such
  field, reading it gives `undefined`, and `undefined === undefined` holds).
  A field present with the value `undefined` or `null` is outside the model.
  The other record kinds are replaced wholesale by the reducer, so their key
  fields are plain values; the optional `courseId` of a communication is an
  `Option`, and so are the descriptive fields of a course (an imported course
  carries only the fields the imported object had) and the `answer` of a
  question.
* `generateId` and the clock are not part of the store: a caller that uses them
  takes the generated id and each reading of the clock as arguments.
* Numbers (points, scores, progress) are integers, modelled by `Int`.  The
  average progress of the dashboard divides a sum of integers by a count and
  rounds: it is computed in exact rational arithmetic (`ℚ`), with `Math.round`
  as `mathRound`.
* `new Date(text)` is an argument of the views that read dates: `parseDate`
  gives the time value in milliseconds, `none` for an invalid date.
  `Array.prototype.sort` with a consistent comparator is the stable sort
  `List.insertionSort`.
* `String.prototype.trim` is `trim` below.  `String.prototype.toLowerCase` is an
  argument of the grading functions, so that what is proved of them holds for
  the lower-casing of the host; `asciiToLowerCase` evaluates them on strings
  whose cased letters are ASCII.
* `JSON.parse` is not modelled: `handleImport` and `loadState` take the parsed
  object, or the fact that parsing failed, as their input.
* A handler that sets the form state of its component is followed by a render
  of that component.  The application has no error boundary: when that render
  throws, React unmounts the root and the update the handler dispatched is
  never committed nor persisted.  Such a handler returns an `Option`, `none`
  standing for that outcome.
-/

namespace LMS

/-- Opaque string identifier (prefix plus random suffix). -/
abbrev Id := String

structure User where
  id : Id
  name : String
  email : String
  role : String
  color : String
deriving DecidableEq, Repr

structure Lesson where
  id : Id
  title : String
  type : String
  provider : String
  url : String
  duration : Int
  releaseDate : Option String
deriving DecidableEq, Repr

/-- Module record; the dashboard reads `module.lessons` with a fallback, so the
lesson list is optional. -/
structure Module where
  id : Id
  title : String
  releaseOffset : Int
  lessons : Option (List Lesson)
deriving DecidableEq, Repr

/-- Course record.  The id and the two timestamps are set by every path that
creates a course; the other fields are those the creating object carried. -/
structure Course where
  id : Id
  title : Option String
  description : Option String
  category : Option String
  level : Option String
  language : Option String
  duration : Option Int
  coverImage : Option String
  password : Option String
  prerequisites : Option (List Id)
  modules : Option (List Module)
  instructors : Option (List Id)
  visibility : Option String
  createdAt : String
  updatedAt : String
deriving DecidableEq, Repr

/-- Enrollment record.  Every field is optional: `none` stands for a field the
JavaScript object does not carry. -/
structure Enrollment where
  id : Option Id
  courseId : Option Id
  userId : Option Id
  progress : Option Int
  enrolledOn : Option String
deriving DecidableEq, Repr

structure Bundle where
  id : Id
  name : String
  description : String
  courseIds : List Id
  visibility : String
  badgeColor : String
  createdAt : String
deriving DecidableEq, Repr

structure Question where
  id : Id
  type : String
  prompt : String
  options : List String
  answer : Option String
  points : Option Int
deriving DecidableEq, Repr

structure Quiz where
  id : Id
  courseId : Id
  title : String
  opensAt : String
  closesAt : String
  timeLimit : Int
  attemptsAllowed : Int
  shuffleQuestions : Bool
  questions : List Question
deriving DecidableEq, Repr

structure ResponseDetail where
  questionId : Id
  response : String
  correct : Bool
deriving DecidableEq, Repr

structure QuizResult where
  id : Id
  quizId : Id
  studentId : Id
  score : Int
  totalPoints : Int
  submittedAt : String
  responses : List ResponseDetail
deriving DecidableEq, Repr

structure Template where
  accentColor : String
  backgroundColor : String
  signature : String
  message : String
  badge : String
deriving DecidableEq, Repr

structure Certificate where
  id : Id
  courseId : Id
  studentId : Id
  issuedOn : String
  template : Template
deriving DecidableEq, Repr

/-- Communication record; `courseId` is optional (a general message has none). -/
structure Communication where
  id : Id
  courseId : Option Id
  type : String
  title : String
  message : String
  audience : String
  createdBy : Id
  createdAt : String
deriving DecidableEq, Repr

/-- The whole document held by the store. -/
structure State where
  users : List User
  courses : List Course
  enrollments : List Enrollment
  bundles : List Bundle
  quizzes : List Quiz
  quizResults : List QuizResult
  certificates : List Certificate
  communications : List Communication
  activeUserId : Id
deriving DecidableEq, Repr

/-- The intents of the reducer, one constructor per `case`; `OTHER` is any
action type the `switch` does not list (the `default` branch). -/
inductive Action where
  | SET_ACTIVE_USER (payload : Id)
  | CREATE_COURSE (payload : Course)
  | UPDATE_COURSE (payload : Course)
  | DELETE_COURSE (payload : Id)
  | IMPORT_COURSE (payload : Course)
  | ADD_ENROLLMENT (payload : Enrollment)
  | UPDATE_ENROLLMENT (payload : Enrollment)
  | CREATE_BUNDLE (payload : Bundle)
  | UPDATE_BUNDLE (payload : Bundle)
  | DELETE_BUNDLE (payload : Id)
  | CREATE_QUIZ (payload : Quiz)
  | UPDATE_QUIZ (payload : Quiz)
  | DELETE_QUIZ (payload : Id)
  | SUBMIT_QUIZ (payload : QuizResult)
  | SAVE_CERTIFICATE (payload : Certificate)
  | DELETE_CERTIFICATE (payload : Id)
  | ADD_COMMUNICATION (payload : Communication)
  | DELETE_COMMUNICATION (payload : Id)
  | OTHER
deriving DecidableEq, Repr

/-- One field of `{ ...base, ...over }`: the value of `over` when it carries the
field, otherwise the value of `base`. -/
def spreadField {α : Type} (base over : Option α) : Option α :=
  match over with
  | some v => some v
  | none => base

/-- The object `{ ...base, ...over }` on enrollment records. -/
def spreadEnrollment (base over : Enrollment) : Enrollment :=
  { id := spreadField base.id over.id
    courseId := spreadField base.courseId over.courseId
    userId := spreadField base.userId over.userId
    progress := spreadField base.progress over.progress
    enrolledOn := spreadField base.enrolledOn over.enrolledOn }

/-- Scan of `Array.prototype.findIndex` from position `i`. -/
def findIndexFrom {α : Type} (p : α → Bool) : List α → Nat → Int
  | [], _ => -1
  | x :: xs, i => if p x then (i : Int) else findIndexFrom p xs (i + 1)

/-- `Array.prototype.findIndex`: index of the first element satisfying `p`,
`-1` when there is none. -/
def findIndex {α : Type} (p : α → Bool) (xs : List α) : Int :=
  findIndexFrom p xs 0

/-- The reducer of `LMSContext.jsx`. -/
def reducer (state : State) : Action → State
  | .SET_ACTIVE_USER payload => { state with activeUserId := payload }
  | .CREATE_COURSE payload => { state with courses := state.courses ++ [payload] }
  | .UPDATE_COURSE payload =>
    { state with
      courses := state.courses.map fun course => if course.id = payload.id then payload else course }
  | .DELETE_COURSE courseId =>
    let remainingQuizzes := state.quizzes.filter fun quiz => decide (quiz.courseId ≠ courseId)
    let remainingQuizIds := remainingQuizzes.map fun quiz => quiz.id
    { state with
      courses := state.courses.filter fun course => decide (course.id ≠ courseId)
      enrollments := state.enrollments.filter fun enrollment => decide (enrollment.courseId ≠ some courseId)
      bundles := state.bundles.map fun bundle =>
        { bundle with courseIds := bundle.courseIds.filter fun id => decide (id ≠ courseId) }
      quizzes := remainingQuizzes
      quizResults := state.quizResults.filter fun result => decide (result.quizId ∈ remainingQuizIds)
      certificates := state.certificates.filter fun certificate => decide (certificate.courseId ≠ courseId)
      communications := state.communications.filter fun message => decide (message.courseId ≠ some courseId) }
  | .IMPORT_COURSE payload => { state with courses := state.courses ++ [payload] }
  | .ADD_ENROLLMENT payload =>
    match state.enrollments.find? fun item =>
        decide (item.courseId = payload.courseId ∧ item.userId = payload.userId) with
    | some existing =>
      { state with
        enrollments := state.enrollments.map fun enrollment =>
          if enrollment.id = existing.id then spreadEnrollment existing payload else enrollment }
    | none => { state with enrollments := state.enrollments ++ [payload] }
  | .UPDATE_ENROLLMENT payload =>
    { state with
      enrollments := state.enrollments.map fun enrollment =>
        if enrollment.id = payload.id then spreadEnrollment enrollment payload else enrollment }
  | .CREATE_BUNDLE payload => { state with bundles := state.bundles ++ [payload] }
  | .UPDATE_BUNDLE payload =>
    { state with
      bundles := state.bundles.map fun bundle => if bundle.id = payload.id then payload else bundle }
  | .DELETE_BUNDLE payload =>
    { state with bundles := state.bundles.filter fun bundle => decide (bundle.id ≠ payload) }
  | .CREATE_QUIZ payload => { state with quizzes := state.quizzes ++ [payload] }
  | .UPDATE_QUIZ payload =>
    { state with
      quizzes := state.quizzes.map fun quiz => if quiz.id = payload.id then payload else quiz }
  | .DELETE_QUIZ payload =>
    { state with
      quizzes := state.quizzes.filter fun quiz => decide (quiz.id ≠ payload)
      quizResults := state.quizResults.filter fun result => decide (result.quizId ≠ payload) }
  | .SUBMIT_QUIZ payload =>
    let existingResultIndex := findIndex
      (fun result => decide (result.quizId = payload.quizId ∧ result.studentId = payload.studentId))
      state.quizResults
    if existingResultIndex ≥ 0 then
      { state with quizResults := state.quizResults.set existingResultIndex.toNat payload }
    else
      { state with quizResults := state.quizResults ++ [payload] }
  | .SAVE_CERTIFICATE payload =>
    let existingIndex := findIndex
      (fun certificate =>
        decide (certificate.courseId = payload.courseId ∧ certificate.studentId = payload.studentId))
      state.certificates
    if existingIndex ≥ 0 then
      { state with certificates := state.certificates.set existingIndex.toNat payload }
    else
      { state with certificates := state.certificates ++ [payload] }
  | .DELETE_CERTIFICATE payload =>
    { state with certificates := state.certificates.filter fun certificate => decide (certificate.id ≠ payload) }
  | .ADD_COMMUNICATION payload => { state with communications := state.communications ++ [payload] }
  | .DELETE_COMMUNICATION payload =>
    { state with
      communications := state.communications.filter fun communication => decide (communication.id ≠ payload) }
  | .OTHER => state

/-- The store operations exposed by `LMSProvider`: each dispatches one action. -/
def deleteCourse (state : State) (courseId : Id) : State := reducer state (.DELETE_COURSE courseId)

def createCourse (state : State) (payload : Course) : State := reducer state (.CREATE_COURSE payload)

def updateCourse (state : State) (payload : Course) : State := reducer state (.UPDATE_COURSE payload)

def addEnrollment (state : State) (payload : Enrollment) : State := reducer state (.ADD_ENROLLMENT payload)

def updateEnrollment (state : State) (payload : Enrollment) : State :=
  reducer state (.UPDATE_ENROLLMENT payload)

def submitQuiz (state : State) (payload : QuizResult) : State := reducer state (.SUBMIT_QUIZ payload)

def saveCertificate (state : State) (payload : Certificate) : State :=
  reducer state (.SAVE_CERTIFICATE payload)

/-- The call `handleSave` of `CertificateStudio.jsx`: builds the payload from the
selected course and learner and dispatches `saveCertificate`.  The two values
the component obtains from outside the store are parameters: `generatedId` is
the result of `generateId('cert')` and `now` that of `new Date().toISOString()`.
An empty selection returns without saving. -/
def handleSave (state : State) (selectedCourseId selectedStudentId : Id) (template : Template)
    (generatedId : Id) (now : String) : State :=
  if selectedCourseId = "" ∨ selectedStudentId = "" then state
  else
    let existing := state.certificates.find? fun certificate =>
      decide (certificate.courseId = selectedCourseId ∧ certificate.studentId = selectedStudentId)
    saveCertificate state
      { id := match existing with
          | some found => found.id
          | none => generatedId
        courseId := selectedCourseId
        studentId := selectedStudentId
        issuedOn := match existing with
          | some found => found.issuedOn
          | none => now
        template := template }

/-- A sequence of dispatched actions, applied left to right. -/
def run (s : State) (actions : List Action) : State := actions.foldl reducer s

def deleteQuiz (state : State) (quizId : Id) : State := reducer state (.DELETE_QUIZ quizId)

def updateBundle (state : State) (payload : Bundle) : State := reducer state (.UPDATE_BUNDLE payload)

def updateQuiz (state : State) (payload : Quiz) : State := reducer state (.UPDATE_QUIZ payload)

def importCourse (state : State) (payload : Course) : State := reducer state (.IMPORT_COURSE payload)

/-! ## Quiz grading (`QuizManager.jsx`) -/

/-- The code points removed by `String.prototype.trim`: the ECMAScript
`WhiteSpace` and `LineTerminator` productions. -/
def isTrimChar (c : Char) : Bool :=
  let n := c.toNat
  n = 0x09 || n = 0x0A || n = 0x0B || n = 0x0C || n = 0x0D || n = 0x20 || n = 0xA0 ||
  n = 0x1680 || (0x2000 ≤ n && n ≤ 0x200A) || n = 0x2028 || n = 0x2029 || n = 0x202F ||
  n = 0x205F || n = 0x3000 || n = 0xFEFF

/-- `String.prototype.trim`: the string without its leading and trailing
white space and line terminators. -/
def trim (s : String) : String :=
  String.mk ((s.data.dropWhile isTrimChar).reverse.dropWhile isTrimChar).reverse

/-- Lower-casing of the letters `A` to `Z`, every other character kept: the
value of `String.prototype.toLowerCase` on a string whose cased letters are
all ASCII.  The grading functions take the lower-casing function as an argument;
this one is used to evaluate them on such strings. -/
def asciiToLowerCase (s : String) : String := String.mk (s.data.map Char.toLower)

/-- The expression `typeof v === 'string' ? v.trim().toLowerCase() : v` on a
value that is a string or `undefined`. -/
def normalize (toLowerCase : String → String) (v : Option String) : Option String :=
  match v with
  | some s => some (toLowerCase (trim s))
  | none => none

/-- Truthiness of a value that is a string or `undefined`: a non-empty string. -/
def truthy (v : Option String) : Bool :=
  match v with
  | some s => decide (s ≠ "")
  | none => false

/-- The value `isCorrect` computed for one question in `evaluateQuiz`, as the
truth value the following `if (isCorrect)` tests.  `responses` is the response
object of the player, read at key `question.id` (`none`: no entry). -/
def isCorrect (toLowerCase : String → String) (responses : Id → Option String)
    (question : Question) : Bool :=
  let answer := responses question.id
  let normalizedCorrect := normalize toLowerCase question.answer
  let normalizedResponse := normalize toLowerCase answer
  if question.type = "short-answer" then
    truthy normalizedResponse && truthy normalizedCorrect &&
      decide (normalizedResponse = normalizedCorrect)
  else
    decide (normalizedResponse = normalizedCorrect)

/-- The object `{ score, totalPoints, detailed }` returned by `evaluateQuiz`. -/
structure Evaluation where
  score : Int
  totalPoints : Int
  detailed : List ResponseDetail
deriving DecidableEq, Repr

/-- The body of the `forEach` callback of `evaluateQuiz`: the accumulators
`score`, `totalPoints`, `detailed` after one more question. -/
def gradeQuestion (toLowerCase : String → String) (responses : Id → Option String)
    (acc : Evaluation) (question : Question) : Evaluation :=
  let answer := responses question.id
  let correct := isCorrect toLowerCase responses question
  { score := if correct then acc.score + question.points.getD 1 else acc.score
    totalPoints := acc.totalPoints + question.points.getD 1
    detailed := acc.detailed ++
      [{ questionId := question.id, response := answer.getD "", correct := correct }] }

/-- The function `evaluateQuiz` of `QuizManager.jsx`. -/
def evaluateQuiz (toLowerCase : String → String) (responses : Id → Option String)
    (quiz : Quiz) : Evaluation :=
  quiz.questions.foldl (gradeQuestion toLowerCase responses)
    { score := 0, totalPoints := 0, detailed := [] }

/-! ## Course import (`CourseBuilder.jsx`) -/

/-- The object `JSON.parse` returns for an imported course: any field may be
missing (`none`; a field whose value is `null` counts as missing for `??`). -/
structure ParsedCourse where
  id : Option Id
  title : Option String
  description : Option String
  category : Option String
  level : Option String
  language : Option String
  duration : Option Int
  coverImage : Option String
  password : Option String
  prerequisites : Option (List Id)
  modules : Option (List Module)
  instructors : Option (List Id)
  visibility : Option String
  createdAt : Option String
  updatedAt : Option String
deriving DecidableEq, Repr

/-- The constant `hydrated` of `handleImport`.  `generatedId` is the result of
`generateId('course')`; `createdNow` and `updatedNow` are the two readings
`new Date().toISOString()` of the object literal, in source order. -/
def hydrated (parsed : ParsedCourse) (generatedId : Id) (createdNow updatedNow : String) :
    Course :=
  { id := parsed.id.getD generatedId
    title := parsed.title
    description := parsed.description
    category := parsed.category
    level := parsed.level
    language := parsed.language
    duration := parsed.duration
    coverImage := parsed.coverImage
    password := parsed.password
    prerequisites := parsed.prerequisites
    modules := parsed.modules
    instructors := parsed.instructors
    visibility := parsed.visibility
    createdAt := parsed.createdAt.getD createdNow
    updatedAt := updatedNow }

/-- Whether the render of `CourseBuilder` throws on the document `state` with the
form state `formState`.  The form reads three fields without a guard:
`formState.prerequisites.includes(course.id)` for each course other than the one
in the form, `formState.instructors.includes(instructor.id)` for each user with
role `instructor`, and `formState.modules.length`; every other read has a `?.`
or `??` fallback. -/
def builderRenderThrows (state : State) (formState : Course) : Bool :=
  (decide (formState.prerequisites = none) &&
      state.courses.any fun course => decide (course.id ≠ formState.id)) ||
    (decide (formState.instructors = none) &&
      state.users.any fun user => decide (user.role = "instructor")) ||
    decide (formState.modules = none)

/-- The call `handleImport` of `CourseBuilder.jsx`.  `parsed` is the outcome of
`JSON.parse(importValue)`: `none` when it throws, in which case the `catch`
branch leaves the store as it is.  Otherwise the handler dispatches
`importCourse(hydrated)` and calls `setFormState(hydrated)`; the render that
follows shows the new document with `hydrated` in the form.  The result is
`none` when that render throws: the import is then never committed. -/
def handleImport (state : State) (parsed : Option ParsedCourse) (generatedId : Id)
    (createdNow updatedNow : String) : Option State :=
  match parsed with
  | some parsed =>
    let imported := hydrated parsed generatedId createdNow updatedNow
    let next := importCourse state imported
    if builderRenderThrows next imported then none else some next
  | none => some state

/-! ## Start-up load and persistence (`LMSContext.jsx`) -/

/-- The object `JSON.parse` returns for the stored document: each of the nine
keys may be missing (`none`; a key whose value is `null` counts as missing for
`??`).  A key that is present holds a value of the shape of that collection. -/
structure ParsedState where
  users : Option (List User)
  courses : Option (List Course)
  enrollments : Option (List Enrollment)
  bundles : Option (List Bundle)
  quizzes : Option (List Quiz)
  quizResults : Option (List QuizResult)
  certificates : Option (List Certificate)
  communications : Option (List Communication)
  activeUserId : Option Id
deriving DecidableEq, Repr

/-- What `loadState` finds in the persistence slot: nothing (`getItem` gives
`null` or the empty string), a text on which `JSON.parse` or the reads of the
parsed value throw, or a parsed object. -/
inductive Stored where
  | nothing
  | unreadable
  | object (parsed : ParsedState)
deriving DecidableEq, Repr

/-- The function `loadState` of `LMSContext.jsx`.  `initialState` is the seed
document of `data/initialData.js`; `hasWindow` is `typeof window !== 'undefined'`. -/
def loadState (initialState : State) (hasWindow : Bool) (stored : Stored) : State :=
  if hasWindow = false then initialState
  else
    match stored with
    | .nothing => initialState
    | .unreadable => initialState
    | .object parsed =>
      { users := parsed.users.getD initialState.users
        courses := parsed.courses.getD initialState.courses
        enrollments := parsed.enrollments.getD initialState.enrollments
        bundles := parsed.bundles.getD initialState.bundles
        quizzes := parsed.quizzes.getD initialState.quizzes
        quizResults := parsed.quizResults.getD initialState.quizResults
        certificates := parsed.certificates.getD initialState.certificates
        communications := parsed.communications.getD initialState.communications
        activeUserId := parsed.activeUserId.getD initialState.activeUserId }

/-- The content of the persistence slot after the persist effect of
`LMSProvider` wrote `JSON.stringify(state)`, as `JSON.parse` reads it back: an
object with all nine keys.  The JSON text in between is not modelled; on the
records of this model writing and parsing it gives back the same values. -/
def persisted (state : State) : Stored :=
  .object
    { users := some state.users
      courses := some state.courses
      enrollments := some state.enrollments
      bundles := some state.bundles
      quizzes := some state.quizzes
      quizResults := some state.quizResults
      certificates := some state.certificates
      communications := some state.communications
      activeUserId := some state.activeUserId }

/-! ## Derived views (`Dashboard.jsx`) -/

/-- `Math.round` on an exact value: the nearest integer, a tie going up. -/
def mathRound (x : ℚ) : Int := ⌊x + 1 / 2⌋

/-- The enrollments the student branch of `roleInsights` works on:
`enrollments.filter((enrollment) => enrollment.userId === activeUser.id)`;
`userId` is `activeUser.id`. -/
def userEnrollments (enrollments : List Enrollment) (userId : Id) : List Enrollment :=
  enrollments.filter fun enrollment => decide (enrollment.userId = some userId)

/-- The constant `enrolledCourses` of the student branch of `roleInsights`: the
courses found for the user's enrollments, `filter(Boolean)` dropping the
enrollments whose course is not in the collection. -/
def enrolledCourses (courses : List Course) (enrollments : List Enrollment) (userId : Id) :
    List Course :=
  ((userEnrollments enrollments userId).map fun enrollment =>
    courses.find? fun course => decide (some course.id = enrollment.courseId)).reduceOption

/-- The number shown as `% average progress` by the student branch of
`roleInsights`. -/
def averageProgress (courses : List Course) (enrollments : List Enrollment) (userId : Id) :
    Int :=
  mathRound
    (((userEnrollments enrollments userId).foldl
        (fun total enrollment => total + ((enrollment.progress.getD 0 : Int) : ℚ)) 0) /
      ((max 1 (enrolledCourses courses enrollments userId).length : Nat) : ℚ))

/-- An entry of the upcoming-releases view:
`{ ...lesson, courseTitle: course.title, courseId: course.id }`. -/
structure UpcomingLesson where
  lesson : Lesson
  courseTitle : Option String
  courseId : Id
deriving DecidableEq, Repr

/-- The two nested `flatMap` of `upcomingReleases`: every lesson of every module
of every course, a missing `modules` or `lessons` counting as empty. -/
def lessonEntries (courses : List Course) : List UpcomingLesson :=
  courses.flatMap fun course =>
    match course.modules with
    | some modules =>
      modules.flatMap fun module =>
        match module.lessons with
        | some lessons =>
          lessons.map fun lesson =>
            { lesson := lesson, courseTitle := course.title, courseId := course.id }
        | none => []
    | none => []

/-- The filter of `upcomingReleases`:
`lesson.releaseDate && new Date(lesson.releaseDate) >= now`. -/
def isUpcoming (parseDate : String → Option Int) (now : Int) (entry : UpcomingLesson) : Bool :=
  match entry.lesson.releaseDate with
  | some text =>
    decide (text ≠ "") &&
      (match parseDate text with
       | some time => decide (now ≤ time)
       | none => false)
  | none => false

/-- The time value `new Date(lesson.releaseDate)` the comparator of
`upcomingReleases` subtracts.  The comparator only sees entries that passed
`isUpcoming`, whose date is valid; the value 0 given to the others is never used. -/
def releaseTime (parseDate : String → Option Int) (entry : UpcomingLesson) : Int :=
  match entry.lesson.releaseDate with
  | some text => (parseDate text).getD 0
  | none => 0

/-- The view `upcomingReleases` of `Dashboard.jsx`; `now` is the time value of
`new Date()`. -/
def upcomingReleases (parseDate : String → Option Int) (now : Int) (courses : List Course) :
    List UpcomingLesson :=
  ((((lessonEntries courses).filter (isUpcoming parseDate now)).insertionSort
      fun a b => releaseTime parseDate a ≤ releaseTime parseDate b)).take 4

/-! ## Predicates used in the statements -/

/-- The ids of the course collection, in order. -/
def courseIds (s : State) : List Id := s.courses.map fun c => c.id

/-- A course call that keeps course ids distinct when issued on `s`: an update,
a delete, or a create whose payload id is not yet in the collection. -/
def courseCallAdmissible (s : State) : Action → Bool
  | .CREATE_COURSE payload => s.courses.all fun c => decide (c.id ≠ payload.id)
  | .UPDATE_COURSE _ => true
  | .DELETE_COURSE _ => true
  | _ => false

/-- Every call of the sequence is admissible on the document it is issued on. -/
def courseCallsAdmissible : State → List Action → Bool
  | _, [] => true
  | s, a :: rest => courseCallAdmissible s a && courseCallsAdmissible (reducer s a) rest

/-- Two enrollments are for the same (courseId, userId) pair. -/
def samePair (a b : Enrollment) : Prop := a.courseId = b.courseId ∧ a.userId = b.userId

instance (a b : Enrollment) : Decidable (samePair a b) := by unfold samePair; infer_instance

/-- At most one enrollment per (courseId, userId) pair. -/
def EnrollmentPairsUnique (s : State) : Prop :=
  s.enrollments.Pairwise fun a b => ¬ samePair a b

instance (s : State) : Decidable (EnrollmentPairsUnique s) := by
  unfold EnrollmentPairsUnique; infer_instance

/-- The enrollments of the document for the pair `(c, u)`, in order. -/
def enrollmentsFor (s : State) (c u : Option Id) : List Enrollment :=
  s.enrollments.filter fun e => decide (e.courseId = c ∧ e.userId = u)

/-- The condition under which an action keeps enrollment pairs unique: for
`ADD_ENROLLMENT` the enrollment ids of the document are pairwise distinct; for
`UPDATE_ENROLLMENT` the payload carries no courseId (resp. userId) or the one of
every enrollment it matches by id; no condition for the other actions. -/
def enrollmentActionSafe (s : State) : Action → Prop
  | .ADD_ENROLLMENT _ => (s.enrollments.map fun e => e.id).Nodup
  | .UPDATE_ENROLLMENT payload =>
    ∀ e ∈ s.enrollments, e.id = payload.id →
      (payload.courseId = none ∨ payload.courseId = e.courseId) ∧
      (payload.userId = none ∨ payload.userId = e.userId)
  | _ => True

instance (s : State) (a : Action) : Decidable (enrollmentActionSafe s a) := by
  cases a <;> unfold enrollmentActionSafe <;> infer_instance

/-- The quiz results of the document for the pair `(q, st)`, in order. -/
def resultsFor (s : State) (q st : Id) : List QuizResult :=
  s.quizResults.filter fun r => decide (r.quizId = q ∧ r.studentId = st)

/-- At most one quiz result per (quizId, studentId) pair. -/
def ResultPairsUnique (s : State) : Prop :=
  s.quizResults.Pairwise fun a b => ¬ (a.quizId = b.quizId ∧ a.studentId = b.studentId)

instance (s : State) : Decidable (ResultPairsUnique s) := by
  unfold ResultPairsUnique; infer_instance

/-- Replace the first element satisfying `p` by `x`, or append `x` when there is
none: the list the reducer's `findIndex` / assign-or-append idiom produces
(`set_findIndex_eq_overwriteFirst`). -/
def overwriteFirst {α : Type} (p : α → Bool) (x : α) : List α → List α
  | [] => [x]
  | y :: ys => if p y then x :: ys else y :: overwriteFirst p x ys

/-! ## Concrete documents used to evaluate the reducer -/

/-- The document with every collection empty. -/
def emptyState : State :=
  { users := [], courses := [], enrollments := [], bundles := [], quizzes := [],
    quizResults := [], certificates := [], communications := [], activeUserId := "" }

def sampleCourse (id : Id) (title : String) : Course :=
  { id := id, title := some title, description := some "", category := some "General",
    level := some "Beginner", language := some "English", duration := some 7,
    coverImage := some "", password := some "", prerequisites := some [],
    modules := some [], instructors := some [], visibility := some "public",
    createdAt := "2024-01-01T00:00:00.000Z", updatedAt := "2024-01-01T00:00:00.000Z" }

def sampleQuiz (id courseId : Id) : Quiz :=
  { id := id, courseId := courseId, title := "Quiz", opensAt := "", closesAt := "",
    timeLimit := 20, attemptsAllowed := 1, shuffleQuestions := false, questions := [] }

def sampleResult (id quizId studentId : Id) (score : Int) : QuizResult :=
  { id := id, quizId := quizId, studentId := studentId, score := score, totalPoints := 3,
    submittedAt := "2024-01-01T00:00:00.000Z", responses := [] }

def sampleEnrollment (id courseId userId : Id) (progress : Int) : Enrollment :=
  { id := some id, courseId := some courseId, userId := some userId, progress := some progress,
    enrolledOn := some "2024-01-01T00:00:00.000Z" }

def sampleTemplate (signature : String) : Template :=
  { accentColor := "#4f46e5", backgroundColor := "#eef2ff", signature := signature,
    message := "has successfully completed this course.", badge := "Certificate of Achievement" }

def sampleCertificate (id courseId studentId : Id) (issuedOn : String) : Certificate :=
  { id := id, courseId := courseId, studentId := studentId, issuedOn := issuedOn,
    template := sampleTemplate "" }

/-- Two quizzes share the id `quiz-1`, one of course `c1` and one of course `c2`;
one result references `quiz-1`. -/
def sharedQuizIdState : State :=
  { emptyState with
    quizzes := [sampleQuiz "quiz-1" "c1", sampleQuiz "quiz-1" "c2"]
    quizResults := [sampleResult "result-1" "quiz-1" "u1" 2] }

/-- One quiz per course `c1`, `c2`, each with one result. -/
def twoQuizState : State :=
  { emptyState with
    quizzes := [sampleQuiz "quiz-1" "c1", sampleQuiz "quiz-2" "c2"]
    quizResults := [sampleResult "result-1" "quiz-1" "u1" 2, sampleResult "result-2" "quiz-2" "u1" 3] }

/-- One quiz of course `c2` with a result, and one result whose quizId names no quiz. -/
def orphanResultState : State :=
  { emptyState with
    quizzes := [sampleQuiz "quiz-2" "c2"]
    quizResults := [sampleResult "result-1" "quiz-9" "u1" 2, sampleResult "result-2" "quiz-2" "u1" 3] }

def oneCourseState : State := { emptyState with courses := [sampleCourse "course-1" "Algebra"] }

/-- Two enrollments of learner `u1`, in courses `c1` and `c2`. -/
def twoEnrollmentState : State :=
  { emptyState with
    enrollments := [sampleEnrollment "enroll-1" "c1" "u1" 10, sampleEnrollment "enroll-2" "c2" "u1" 20] }

/-- Two enrollments for different pairs that share the id `enroll-1`. -/
def sharedEnrollmentIdState : State :=
  { emptyState with
    enrollments := [sampleEnrollment "enroll-1" "c1" "u1" 10, sampleEnrollment "enroll-1" "c2" "u2" 20] }

/-- Results of two learners for `quiz-1`. -/
def twoResultState : State :=
  { emptyState with
    quizResults := [sampleResult "result-1" "quiz-1" "u1" 1, sampleResult "result-2" "quiz-1" "u2" 2] }

/-- Two certificates for the same pair `(c1, u1)`, followed by one of `u2`. -/
def samePairCertificateState : State :=
  { emptyState with
    certificates := [sampleCertificate "cert-1" "c1" "u1" "2024-01-01T00:00:00.000Z",
      sampleCertificate "cert-2" "c1" "u1" "2024-01-02T00:00:00.000Z",
      sampleCertificate "cert-3" "c1" "u2" "2024-01-03T00:00:00.000Z"] }

/-- Certificates of two learners for course `c1`. -/
def twoCertificateState : State :=
  { emptyState with
    certificates := [sampleCertificate "cert-1" "c1" "u1" "2024-01-01T00:00:00.000Z",
      sampleCertificate "cert-2" "c1" "u2" "2024-01-02T00:00:00.000Z"] }

def sampleBundle (id : Id) (courseIds : List Id) : Bundle :=
  { id := id, name := "New bundle", description := "", courseIds := courseIds,
    visibility := "public", badgeColor := "bg-primary-500",
    createdAt := "2024-01-01T00:00:00.000Z" }

def oneBundleState : State := { emptyState with bundles := [sampleBundle "bundle-1" ["c1"]] }

def sampleQuestion (id type answer : String) (points : Int) : Question :=
  { id := id, type := type, prompt := "", options := [], answer := some answer,
    points := some points }

/-- The quiz of the worked example: two multiple-choice questions worth 1 and 2
points with answers `B` and `True`. -/
def exampleQuiz : Quiz :=
  { sampleQuiz "quiz-1" "c1" with
    questions := [sampleQuestion "question-1" "multiple-choice" "B" 1,
      sampleQuestion "question-2" "multiple-choice" "True" 2] }

/-- A quiz with one short-answer question whose answer is `Paris`. -/
def shortAnswerQuiz : Quiz :=
  { sampleQuiz "quiz-2" "c1" with
    questions := [sampleQuestion "question-3" "short-answer" " Paris " 1] }

/-- The response object with entries for `question-1` and `question-2`. -/
def exampleResponses (first second : String) : Id → Option String :=
  fun id => if id = "question-1" then some first else if id = "question-2" then some second
    else none

/-- The parsed object with no field at all. -/
def emptyParsedCourse : ParsedCourse :=
  { id := none, title := none, description := none, category := none, level := none,
    language := none, duration := none, coverImage := none, password := none,
    prerequisites := none, modules := none, instructors := none, visibility := none,
    createdAt := none, updatedAt := none }

/-- A parsed course object that carries an id, both timestamps and the three
lists the course form reads. -/
def completeParsedCourse : ParsedCourse :=
  { emptyParsedCourse with
    id := some "course-7", title := some "Imported course",
    prerequisites := some [], modules := some [], instructors := some ["u9"],
    createdAt := some "2020-01-01T00:00:00.000Z",
    updatedAt := some "2020-02-02T00:00:00.000Z" }

/-- A document with one instructor and one course. -/
def builderState : State :=
  { emptyState with
    users := [{ id := "u9", name := "Ada", email := "ada@example.org", role := "instructor",
                color := "bg-primary-500" }]
    courses := [sampleCourse "course-1" "Algebra"] }

/-- The parsed object with none of the nine keys. -/
def emptyParsedState : ParsedState :=
  { users := none, courses := none, enrollments := none, bundles := none, quizzes := none,
    quizResults := none, certificates := none, communications := none, activeUserId := none }

/-- Learner `u1` has two enrollments at progress 100; the course `c9` of the
second one is not in the course collection. -/
def orphanEnrollmentState : State :=
  { emptyState with
    courses := [sampleCourse "c1" "Algebra"]
    enrollments := [sampleEnrollment "enroll-1" "c1" "u1" 100,
      sampleEnrollment "enroll-2" "c9" "u1" 100] }

def sampleLesson (id : Id) (releaseDate : Option String) : Lesson :=
  { id := id, title := "Lesson", type := "video", provider := "youtube", url := "",
    duration := 10, releaseDate := releaseDate }

/-- A course with one module of three lessons: one dated, one undated, one with
a date the parser rejects. -/
def lessonCourse : Course :=
  { sampleCourse "c1" "Algebra" with
    modules := some [{ id := "module-1", title := "Module", releaseOffset := 0,
                       lessons := some [sampleLesson "lesson-1" (some "day-5"),
                         sampleLesson "lesson-2" none,
                         sampleLesson "lesson-3" (some "soon")] }] }

/-- A date parser for the sample lessons: `day-5` is time 5, anything else is
an invalid date. -/
def sampleParseDate (text : String) : Option Int :=
  if text = "day-5" then some 5 else none

/-- The response object with an entry for `question-1` only. -/
def firstOnlyResponses : Id → Option String :=
  fun id => if id = "question-1" then some "B" else none

/-! ## Auxiliary lemmas -/

theorem spreadField_self {α : Type} (a : Option α) : spreadField a a = a := by
  cases a <;> rfl

theorem spreadField_of_none_or_eq {α : Type} (base over : Option α)
    (h : over = none ∨ over = base) : spreadField base over = base := by
  rcases h with h | h
  · subst h; rfl
  · subst h; exact spreadField_self _

/-- Merging a payload for the same pair leaves courseId and userId as they were. -/
theorem spreadEnrollment_pair (existing payload : Enrollment)
    (h : existing.courseId = payload.courseId ∧ existing.userId = payload.userId) :
    (spreadEnrollment existing payload).courseId = existing.courseId ∧
    (spreadEnrollment existing payload).userId = existing.userId := by
  simp [spreadEnrollment, h.1, h.2, spreadField_self]

/-- Mapping a pair-preserving function over the enrollments keeps pairs unique. -/
theorem pairwise_map_of_samePair (l : List Enrollment) (f : Enrollment → Enrollment)
    (hf : ∀ x ∈ l, (f x).courseId = x.courseId ∧ (f x).userId = x.userId)
    (h : l.Pairwise fun a b => ¬ samePair a b) :
    (l.map f).Pairwise fun a b => ¬ samePair a b := by
  rw [List.pairwise_map]
  refine h.imp_of_mem ?_
  intro a b ha hb hab
  unfold samePair at hab ⊢
  rw [(hf a ha).1, (hf a ha).2, (hf b hb).1, (hf b hb).2]
  exact hab

theorem findIndexFrom_succ {α : Type} (p : α → Bool) (l : List α) (i : Nat) :
    findIndexFrom p l (i + 1) =
      if findIndexFrom p l i < 0 then -1 else findIndexFrom p l i + 1 := by
  induction l generalizing i with
  | nil => simp [findIndexFrom]
  | cons y ys ih =>
    by_cases hy : p y = true
    · simp only [findIndexFrom, hy, if_true]
      have : ¬ ((i : Int) < 0) := by omega
      simp [this]
    · simp only [findIndexFrom, hy]
      simpa using ih (i + 1)

theorem findIndexFrom_eq_neg_one_or_le {α : Type} (p : α → Bool) (l : List α) (i : Nat) :
    findIndexFrom p l i = -1 ∨ (i : Int) ≤ findIndexFrom p l i := by
  induction l generalizing i with
  | nil => left; rfl
  | cons y ys ih =>
    by_cases hy : p y = true
    · right; simp [findIndexFrom, hy]
    · simp only [findIndexFrom, hy]
      rcases ih (i + 1) with h | h
      · left; simpa using h
      · right
        have : ((i + 1 : Nat) : Int) ≤ findIndexFrom p ys (i + 1) := h
        simp only [Bool.false_eq_true, if_false]
        omega

theorem findIndex_cons {α : Type} (p : α → Bool) (y : α) (ys : List α) :
    findIndex p (y :: ys) =
      if p y then 0 else if findIndex p ys < 0 then -1 else findIndex p ys + 1 := by
  unfold findIndex
  by_cases hy : p y = true
  · simp [findIndexFrom, hy]
  · simp only [findIndexFrom, hy]
    simpa using findIndexFrom_succ p ys 0

theorem findIndex_eq_neg_one_or_nonneg {α : Type} (p : α → Bool) (l : List α) :
    findIndex p l = -1 ∨ 0 ≤ findIndex p l := by
  simpa [findIndex] using findIndexFrom_eq_neg_one_or_le p l 0

/-- The `findIndex` / assign-or-append idiom of the reducer computes `overwriteFirst`. -/
theorem set_findIndex_eq_overwriteFirst {α : Type} (p : α → Bool) (x : α) (l : List α) :
    (if findIndex p l ≥ 0 then l.set (findIndex p l).toNat x else l ++ [x]) =
      overwriteFirst p x l := by
  induction l with
  | nil => simp [findIndex, findIndexFrom, overwriteFirst]
  | cons y ys ih =>
    rw [findIndex_cons]
    by_cases hy : p y = true
    · simp [hy, overwriteFirst]
    · simp only [hy, overwriteFirst, Bool.false_eq_true, if_false]
      rcases findIndex_eq_neg_one_or_nonneg p ys with h | h
      · have hneg : ¬ (findIndex p ys ≥ 0) := by omega
        have hlt : findIndex p ys < 0 := by omega
        rw [if_neg hneg] at ih
        simp [hlt, ← ih]
      · have hlt : ¬ (findIndex p ys < 0) := by omega
        rw [if_pos h] at ih
        have h1 : findIndex p ys + 1 ≥ 0 := by omega
        have h2 : (findIndex p ys + 1).toNat = (findIndex p ys).toNat + 1 := by omega
        simp only [hlt, if_false, h1, if_true, h2, List.set_cons_succ, ih]

theorem overwriteFirst_of_find?_eq_none {α : Type} (p : α → Bool) (x : α) (l : List α)
    (h : l.find? p = none) : overwriteFirst p x l = l ++ [x] := by
  induction l with
  | nil => rfl
  | cons y ys ih =>
    by_cases hy : p y = true
    · simp [List.find?, hy] at h
    · simp only [List.find?, hy] at h
      simp [overwriteFirst, hy, ih h]

theorem overwriteFirst_of_find?_eq_some {α : Type} (p : α → Bool) (x old : α) (l : List α)
    (h : l.find? p = some old) :
    ∃ i, l[i]? = some old ∧ overwriteFirst p x l = l.set i x := by
  induction l with
  | nil => simp at h
  | cons y ys ih =>
    by_cases hy : p y = true
    · simp only [List.find?, hy, Option.some.injEq] at h
      exact ⟨0, by simp [h], by simp [overwriteFirst, hy]⟩
    · simp only [List.find?, hy] at h
      obtain ⟨i, hi, hset⟩ := ih h
      exact ⟨i + 1, by simpa using hi, by simp [overwriteFirst, hy, hset]⟩

/-- The element `overwriteFirst` replaces is the first one satisfying `p`: it is
at an index before which no element satisfies `p`. -/
theorem overwriteFirst_at_first_match {α : Type} (p : α → Bool) (x old : α) (l : List α)
    (h : l.find? p = some old) :
    ∃ i, l[i]? = some old ∧ (∀ j z, j < i → l[j]? = some z → p z = false) ∧
      overwriteFirst p x l = l.set i x := by
  induction l with
  | nil => simp at h
  | cons y ys ih =>
    by_cases hy : p y = true
    · simp only [List.find?, hy, Option.some.injEq] at h
      exact ⟨0, by simp [h], fun j z hj => absurd hj (Nat.not_lt_zero j),
        by simp [overwriteFirst, hy]⟩
    · simp only [List.find?, hy] at h
      obtain ⟨i, hi, hfirst, hset⟩ := ih h
      refine ⟨i + 1, by simpa using hi, ?_, by simp [overwriteFirst, hy, hset]⟩
      intro j z hj hz
      cases j with
      | zero =>
        simp only [List.getElem?_cons_zero, Option.some.injEq] at hz
        subst hz
        simpa using hy
      | succ j =>
        simp only [List.getElem?_cons_succ] at hz
        exact hfirst j z (by omega) hz

theorem mem_overwriteFirst {α : Type} (p : α → Bool) (x : α) (l : List α) (z : α)
    (hz : z ∈ overwriteFirst p x l) : z = x ∨ z ∈ l := by
  induction l with
  | nil => simpa [overwriteFirst] using hz
  | cons y ys ih =>
    by_cases hy : p y = true
    · simp only [overwriteFirst, hy, if_true, List.mem_cons] at hz
      rcases hz with hz | hz
      · exact Or.inl hz
      · exact Or.inr (List.mem_cons_of_mem _ hz)
    · simp only [overwriteFirst, hy, Bool.false_eq_true, if_false, List.mem_cons] at hz
      rcases hz with hz | hz
      · exact Or.inr (hz ▸ List.mem_cons_self _ _)
      · rcases ih hz with h | h
        · exact Or.inl h
        · exact Or.inr (List.mem_cons_of_mem _ h)

theorem filter_overwriteFirst {α : Type} (p : α → Bool) (x : α) (l : List α)
    (hx : p x = true) (h : (l.filter p).length ≤ 1) :
    (overwriteFirst p x l).filter p = [x] := by
  induction l with
  | nil => simp [overwriteFirst, hx]
  | cons y ys ih =>
    by_cases hy : p y = true
    · simp only [List.filter_cons, hy, if_true, List.length_cons] at h
      have hnil : ys.filter p = [] := List.length_eq_zero.1 (by omega)
      simp [overwriteFirst, hy, hx, hnil]
    · simp only [List.filter_cons, hy] at h
      simp only [overwriteFirst, hy, Bool.false_eq_true, if_false, List.filter_cons]
      exact ih h

theorem pairwise_overwriteFirst {α : Type} (R : α → α → Prop) (p : α → Bool) (x : α)
    (l : List α) (hsame : ∀ y z, p y = true → R y z → R x z)
    (hother : ∀ y, p y = false → R y x) (h : l.Pairwise R) :
    (overwriteFirst p x l).Pairwise R := by
  induction l with
  | nil => simp [overwriteFirst]
  | cons y ys ih =>
    rw [List.pairwise_cons] at h
    by_cases hy : p y = true
    · simp only [overwriteFirst, hy, if_true, List.pairwise_cons]
      exact ⟨fun z hz => hsame y z hy (h.1 z hz), h.2⟩
    · simp only [overwriteFirst, hy, Bool.false_eq_true, if_false, List.pairwise_cons]
      refine ⟨?_, ih h.2⟩
      intro z hz
      rcases mem_overwriteFirst p x ys z hz with hzx | hzy
      · subst hzx; exact hother y (by simpa using hy)
      · exact h.1 z hzy

theorem submitQuiz_quizResults (s : State) (r : QuizResult) :
    (reducer s (.SUBMIT_QUIZ r)).quizResults =
      overwriteFirst (fun x => decide (x.quizId = r.quizId ∧ x.studentId = r.studentId)) r
        s.quizResults := by
  rw [← set_findIndex_eq_overwriteFirst]
  simp only [reducer]
  split <;> rfl

theorem saveCertificate_certificates (s : State) (c : Certificate) :
    (reducer s (.SAVE_CERTIFICATE c)).certificates =
      overwriteFirst (fun x => decide (x.courseId = c.courseId ∧ x.studentId = c.studentId)) c
        s.certificates := by
  rw [← set_findIndex_eq_overwriteFirst]
  simp only [reducer]
  split <;> rfl

theorem courseIds_updateCourse (s : State) (p : Course) :
    courseIds (reducer s (.UPDATE_COURSE p)) = courseIds s := by
  simp only [courseIds, reducer, List.map_map]
  apply List.map_congr_left
  intro c _
  by_cases h : c.id = p.id <;> simp [h]

theorem courseIds_deleteCourse_sublist (s : State) (C : Id) :
    (courseIds (reducer s (.DELETE_COURSE C))).Sublist (courseIds s) := by
  simp only [courseIds, reducer]
  exact (List.filter_sublist _).map _

theorem courseIds_createCourse (s : State) (p : Course) :
    courseIds (reducer s (.CREATE_COURSE p)) = courseIds s ++ [p.id] := by
  simp [courseIds, reducer]

/-- One admissible course call keeps the course ids pairwise distinct. -/
theorem nodup_courseIds_step (s : State) (a : Action) (h : (courseIds s).Nodup)
    (ha : courseCallAdmissible s a = true) : (courseIds (reducer s a)).Nodup := by
  cases a <;> simp [courseCallAdmissible] at ha
  case CREATE_COURSE p =>
    rw [courseIds_createCourse]
    refine List.Nodup.append h (List.nodup_singleton _) ?_
    simp only [List.disjoint_singleton, courseIds, List.mem_map, not_exists, not_and]
    intro c hc
    exact ha c hc
  case UPDATE_COURSE p => rw [courseIds_updateCourse]; exact h
  case DELETE_COURSE C => exact h.sublist (courseIds_deleteCourse_sublist s C)

/-- The results kept by `deleteCourse C` are exactly those whose quizId is the id
of a quiz of another course. -/
theorem mem_quizResults_deleteCourse (state : State) (C : Id) (r : QuizResult) :
    r ∈ (deleteCourse state C).quizResults ↔
      r ∈ state.quizResults ∧ ∃ q ∈ state.quizzes, q.courseId ≠ C ∧ q.id = r.quizId := by
  simp [deleteCourse, reducer, List.mem_filter, List.mem_map, and_assoc]

/-! ## Course deletion cascade -/

/-- C1: after `deleteCourse C` the document holds no course with id `C`, no quiz,
enrollment, certificate or communication whose courseId is `C`, and no bundle
whose courseIds contains `C`. -/
theorem deleteCourse_purges_course (state : State) (C : Id) :
    (∀ c ∈ (deleteCourse state C).courses, c.id ≠ C) ∧
    (∀ q ∈ (deleteCourse state C).quizzes, q.courseId ≠ C) ∧
    (∀ e ∈ (deleteCourse state C).enrollments, e.courseId ≠ some C) ∧
    (∀ c ∈ (deleteCourse state C).certificates, c.courseId ≠ C) ∧
    (∀ m ∈ (deleteCourse state C).communications, m.courseId ≠ some C) ∧
    (∀ b ∈ (deleteCourse state C).bundles, C ∉ b.courseIds) := by
  simp [deleteCourse, reducer, List.mem_filter]

/-- C2 as stated fails: with two quizzes sharing the id `quiz-1`, deleting course
`c1` removes one of them, yet the result referencing `quiz-1` remains. -/
theorem deleteCourse_keeps_result_of_removed_quiz :
    ∃ r ∈ (deleteCourse sharedQuizIdState "c1").quizResults,
      ∃ q ∈ sharedQuizIdState.quizzes, q.courseId = "c1" ∧ r.quizId = q.id := by
  decide

/-- C2 (amended): on a document whose quiz ids are pairwise distinct, after
`deleteCourse C` no quiz result remains whose quizId is the id of a quiz that had
courseId `C` before the call. -/
theorem deleteCourse_purges_results_of_removed_quizzes (state : State) (C : Id)
    (hids : (state.quizzes.map fun q => q.id).Nodup) :
    ∀ r ∈ (deleteCourse state C).quizResults,
      ∀ q ∈ state.quizzes, q.courseId = C → r.quizId ≠ q.id := by
  intro r hr q hq hqC hrq
  obtain ⟨_, q', hq', hq'C, hq'r⟩ := (mem_quizResults_deleteCourse state C r).1 hr
  have hsame : q' = q := List.inj_on_of_nodup_map hids hq' hq (hq'r.trans hrq)
  exact hq'C (hsame ▸ hqC)

/-- Witness for C2: on the two-quiz document, deleting `c1` leaves only the result
of `quiz-2`, and no remaining result names the removed quiz. -/
theorem deleteCourse_purges_results_of_removed_quizzes_witness :
    (deleteCourse twoQuizState "c1").quizResults = [sampleResult "result-2" "quiz-2" "u1" 3] ∧
    (∀ r ∈ (deleteCourse twoQuizState "c1").quizResults,
      ∀ q ∈ twoQuizState.quizzes, q.courseId = "c1" → r.quizId ≠ q.id) :=
  ⟨by decide, deleteCourse_purges_results_of_removed_quizzes twoQuizState "c1" (by decide)⟩

/-- C3 as stated fails: a result whose quizId names no quiz at all (so not a quiz
of the deleted course) is removed by `deleteCourse`. -/
theorem deleteCourse_drops_orphan_result :
    sampleResult "result-1" "quiz-9" "u1" 2 ∈ orphanResultState.quizResults ∧
    (∀ q ∈ orphanResultState.quizzes, q.courseId = "c1" → q.id ≠ "quiz-9") ∧
    sampleResult "result-1" "quiz-9" "u1" 2 ∉ (deleteCourse orphanResultState "c1").quizResults := by
  decide

/-- C3 (amended): `deleteCourse C` keeps, unchanged and in their original relative
order, exactly the quiz results whose quizId is the id of a quiz with courseId
other than `C`; every other result is removed. -/
theorem deleteCourse_quizResults_eq_filter (state : State) (C : Id) :
    (deleteCourse state C).quizResults =
      state.quizResults.filter fun r =>
        decide (∃ q ∈ state.quizzes, q.courseId ≠ C ∧ q.id = r.quizId) := by
  show List.filter _ _ = _
  apply List.filter_congr
  intro r _
  simp [List.mem_map, List.mem_filter, and_assoc]

/-- C4: `deleteCourse C` leaves users and activeUserId unchanged; keeps, in order,
every course with id other than `C` and every quiz, enrollment, certificate and
communication with courseId other than `C`; and maps the bundle collection
position by position, each bundle keeping every field but courseIds, from which
only `C` is filtered out. -/
theorem deleteCourse_frame (state : State) (C : Id) :
    (deleteCourse state C).users = state.users ∧
    (deleteCourse state C).activeUserId = state.activeUserId ∧
    (deleteCourse state C).courses = state.courses.filter (fun c => decide (c.id ≠ C)) ∧
    (deleteCourse state C).quizzes = state.quizzes.filter (fun q => decide (q.courseId ≠ C)) ∧
    (deleteCourse state C).enrollments =
      state.enrollments.filter (fun e => decide (e.courseId ≠ some C)) ∧
    (deleteCourse state C).certificates =
      state.certificates.filter (fun c => decide (c.courseId ≠ C)) ∧
    (deleteCourse state C).communications =
      state.communications.filter (fun m => decide (m.courseId ≠ some C)) ∧
    List.Forall₂
      (fun b b' =>
        b'.id = b.id ∧ b'.name = b.name ∧ b'.description = b.description ∧
        b'.visibility = b.visibility ∧ b'.badgeColor = b.badgeColor ∧
        b'.createdAt = b.createdAt ∧
        b'.courseIds = b.courseIds.filter (fun i => decide (i ≠ C)))
      state.bundles (deleteCourse state C).bundles := by
  refine ⟨rfl, rfl, rfl, rfl, rfl, rfl, rfl, ?_⟩
  simp [deleteCourse, reducer, List.forall₂_map_right_iff, List.forall₂_same]

/-! ## Course ids over sequences of calls -/

/-- C5 as stated fails: from a one-course document, `createCourse` with the id
already present followed by `updateCourse` leaves two courses with that id. -/
theorem createCourse_then_updateCourse_duplicates_id :
    (courseIds oneCourseState).Nodup ∧
    ¬ (courseIds (run oneCourseState
        [.CREATE_COURSE (sampleCourse "course-1" "Geometry"),
         .UPDATE_COURSE (sampleCourse "course-1" "Analysis")])).Nodup := by
  decide

/-- C5 (amended): starting from a document whose course ids are pairwise distinct,
for every finite sequence of createCourse / updateCourse / deleteCourse calls in
which each createCourse carries an id not in the collection at the time of the
call, the course ids are pairwise distinct after every call of the sequence (so
after each updateCourse). -/
theorem courseIds_nodup_after_each_call (s : State) (calls : List Action)
    (h : (courseIds s).Nodup) (hcalls : courseCallsAdmissible s calls = true) :
    ∀ n, (courseIds (run s (calls.take n))).Nodup := by
  induction calls generalizing s with
  | nil => intro n; simpa [run] using h
  | cons a rest ih =>
    intro n
    simp only [courseCallsAdmissible, Bool.and_eq_true] at hcalls
    cases n with
    | zero => simpa [run] using h
    | succ n =>
      simpa [run] using ih (reducer s a) (nodup_courseIds_step s a h hcalls.1) hcalls.2 n

/-- Witness for C5: create `course-2`, update `course-1`, delete `course-2`; the
ids after the update are `course-1`, `course-2`. -/
theorem courseIds_nodup_after_each_call_witness :
    courseIds (run oneCourseState
      ([Action.CREATE_COURSE (sampleCourse "course-2" "Geometry"),
        Action.UPDATE_COURSE (sampleCourse "course-1" "Analysis"),
        Action.DELETE_COURSE "course-2"].take 2)) = ["course-1", "course-2"] ∧
    (courseIds (run oneCourseState
      ([Action.CREATE_COURSE (sampleCourse "course-2" "Geometry"),
        Action.UPDATE_COURSE (sampleCourse "course-1" "Analysis"),
        Action.DELETE_COURSE "course-2"].take 2))).Nodup :=
  ⟨by decide,
   courseIds_nodup_after_each_call oneCourseState
    [Action.CREATE_COURSE (sampleCourse "course-2" "Geometry"),
      Action.UPDATE_COURSE (sampleCourse "course-1" "Analysis"),
      Action.DELETE_COURSE "course-2"] (by decide) (by decide) 2⟩

/-! ## Enrollments -/

/-- C6 as stated fails: after two `addEnrollment` calls for the pair `(c1, u1)`
with ids `enroll-1` and `enroll-2`, the one enrollment for the pair carries the
id `enroll-2` of the second payload, not the id of the record the first call
created. -/
theorem addEnrollment_twice_takes_second_id :
    enrollmentsFor emptyState (some "c1") (some "u1") = [] ∧
    enrollmentsFor
        (addEnrollment (addEnrollment emptyState (sampleEnrollment "enroll-1" "c1" "u1" 0))
          (sampleEnrollment "enroll-2" "c1" "u1" 50)) (some "c1") (some "u1") =
      [sampleEnrollment "enroll-2" "c1" "u1" 50] ∧
    (sampleEnrollment "enroll-2" "c1" "u1" 50).id ≠ (sampleEnrollment "enroll-1" "c1" "u1" 0).id := by
  decide

/-- C6 (amended): for every document with no enrollment for the pair `(c, u)` and
no enrollment sharing the id of `e1`, and any two records `e1`, `e2` for that
pair, after `addEnrollment e1` then `addEnrollment e2` the document holds exactly
one enrollment for `(c, u)`, at the position where the first call appended it:
`e1` overlaid with the fields `e2` carries.  Its progress is the progress of
`e2`; its id is the id of `e2` when `e2` carries one, and the id of `e1` only
when `e2` carries none. -/
theorem addEnrollment_twice (s : State) (c u : Option Id) (e1 e2 : Enrollment)
    (hnone : enrollmentsFor s c u = [])
    (hid : ∀ x ∈ s.enrollments, x.id ≠ e1.id)
    (h1 : e1.courseId = c ∧ e1.userId = u) (h2 : e2.courseId = c ∧ e2.userId = u) :
    (addEnrollment (addEnrollment s e1) e2).enrollments =
      s.enrollments ++ [spreadEnrollment e1 e2] ∧
    enrollmentsFor (addEnrollment (addEnrollment s e1) e2) c u = [spreadEnrollment e1 e2] ∧
    (∀ p, e2.progress = some p → (spreadEnrollment e1 e2).progress = some p) ∧
    (∀ i, e2.id = some i → (spreadEnrollment e1 e2).id = some i) ∧
    (e2.id = none → (spreadEnrollment e1 e2).id = e1.id) := by
  obtain ⟨h1c, h1u⟩ := h1
  obtain ⟨h2c, h2u⟩ := h2
  have hno : ∀ x ∈ s.enrollments, ¬ (x.courseId = c ∧ x.userId = u) := by
    intro x hx
    have := List.filter_eq_nil_iff.1 hnone x hx
    simpa using this
  have hfind1 : s.enrollments.find? (fun item =>
      decide (item.courseId = e1.courseId ∧ item.userId = e1.userId)) = none := by
    rw [List.find?_eq_none]
    intro x hx
    simpa [h1c, h1u] using hno x hx
  have hstep1 : (addEnrollment s e1).enrollments = s.enrollments ++ [e1] := by
    simp only [addEnrollment, reducer, hfind1]
  have hfind2 : (s.enrollments ++ [e1]).find? (fun item =>
      decide (item.courseId = e2.courseId ∧ item.userId = e2.userId)) = some e1 := by
    rw [List.find?_append]
    have : s.enrollments.find? (fun item =>
        decide (item.courseId = e2.courseId ∧ item.userId = e2.userId)) = none := by
      rw [List.find?_eq_none]
      intro x hx
      simpa [h2c, h2u] using hno x hx
    rw [this]
    simp [h1c, h1u, h2c, h2u]
  have hmap : (s.enrollments.map fun enrollment =>
      if enrollment.id = e1.id then spreadEnrollment e1 e2 else enrollment) = s.enrollments := by
    conv_rhs => rw [← List.map_id s.enrollments]
    apply List.map_congr_left
    intro x hx
    simp [hid x hx]
  have hstep2 : (addEnrollment (addEnrollment s e1) e2).enrollments =
      s.enrollments ++ [spreadEnrollment e1 e2] := by
    simp only [addEnrollment, reducer] at hstep1 ⊢
    rw [hstep1, hfind2]
    simp [hmap]
  have hpair := spreadEnrollment_pair e1 e2 ⟨h1c.trans h2c.symm, h1u.trans h2u.symm⟩
  refine ⟨hstep2, ?_, ?_, ?_, ?_⟩
  · unfold enrollmentsFor at hnone ⊢
    rw [hstep2, List.filter_append, hnone]
    simp [hpair.1, hpair.2, h1c, h1u]
  · intro p hp; simp [spreadEnrollment, spreadField, hp]
  · intro i hi; simp [spreadEnrollment, spreadField, hi]
  · intro hi; simp [spreadEnrollment, spreadField, hi]

/-- Witness for C6: on the two-enrollment document, enrolling `u2` in `c1` twice,
the second payload carrying only the pair and a progress, keeps the id
`enroll-3` of the first record and takes the progress 50. -/
theorem addEnrollment_twice_witness :
    enrollmentsFor
      (addEnrollment (addEnrollment twoEnrollmentState (sampleEnrollment "enroll-3" "c1" "u2" 0))
        { id := none, courseId := some "c1", userId := some "u2", progress := some 50,
          enrolledOn := none })
      (some "c1") (some "u2") = [sampleEnrollment "enroll-3" "c1" "u2" 50] :=
  (addEnrollment_twice twoEnrollmentState (some "c1") (some "u2")
    (sampleEnrollment "enroll-3" "c1" "u2" 0)
    { id := none, courseId := some "c1", userId := some "u2", progress := some 50,
      enrolledOn := none }
    (by decide) (by decide) (by decide) (by decide)).2.1

/-- C7 as stated fails: `updateEnrollment` with a payload that moves `enroll-2` to
course `c1` leaves two enrollments for `(c1, u1)`; and `addEnrollment` on a
document where two enrollments share an id rewrites both into the same pair. -/
theorem enrollment_pairs_not_preserved :
    (EnrollmentPairsUnique twoEnrollmentState ∧
      ¬ EnrollmentPairsUnique (updateEnrollment twoEnrollmentState
          { id := some "enroll-2", courseId := some "c1", userId := none, progress := none,
            enrolledOn := none })) ∧
    (EnrollmentPairsUnique sharedEnrollmentIdState ∧
      ¬ EnrollmentPairsUnique (addEnrollment sharedEnrollmentIdState
          (sampleEnrollment "enroll-3" "c1" "u1" 0))) := by
  decide

/-- C7 (amended): the invariant `at most one Enrollment per (courseId, userId)
pair` is preserved by every action other than the two enrollment actions without
condition, by `ADD_ENROLLMENT` on documents whose enrollment ids are pairwise
distinct, and by `UPDATE_ENROLLMENT` when the payload carries no courseId and no
userId or those of the enrollments it matches by id. -/
theorem enrollmentPairsUnique_preserved (s : State) (a : Action)
    (h : EnrollmentPairsUnique s) (hsafe : enrollmentActionSafe s a) :
    EnrollmentPairsUnique (reducer s a) := by
  unfold EnrollmentPairsUnique at h ⊢
  cases a
  case ADD_ENROLLMENT payload =>
    simp only [reducer]
    cases hfind : s.enrollments.find? (fun item =>
        decide (item.courseId = payload.courseId ∧ item.userId = payload.userId)) with
    | none =>
      simp only
      rw [List.find?_eq_none] at hfind
      rw [List.pairwise_append]
      refine ⟨h, List.pairwise_singleton _ _, ?_⟩
      intro x hx y hy
      rw [List.mem_singleton] at hy
      subst hy
      simpa [samePair] using hfind x hx
    | some existing =>
      simp only
      have hmem : existing ∈ s.enrollments := List.mem_of_find?_eq_some hfind
      have hpred := List.find?_some hfind
      simp only [decide_eq_true_eq] at hpred
      apply pairwise_map_of_samePair _ _ _ h
      intro x hx
      by_cases hxe : x.id = existing.id
      · have hx' : x = existing := List.inj_on_of_nodup_map hsafe hx hmem hxe
        subst hx'
        simpa using spreadEnrollment_pair x payload hpred
      · simp [hxe]
  case UPDATE_ENROLLMENT payload =>
    simp only [reducer]
    apply pairwise_map_of_samePair _ _ _ h
    intro x hx
    by_cases hxe : x.id = payload.id
    · have := hsafe x hx hxe
      simp [hxe, spreadEnrollment, spreadField_of_none_or_eq _ _ this.1,
        spreadField_of_none_or_eq _ _ this.2]
    · simp [hxe]
  case DELETE_COURSE C =>
    exact h.sublist (List.filter_sublist _)
  case SUBMIT_QUIZ payload => simp only [reducer]; split <;> exact h
  case SAVE_CERTIFICATE payload => simp only [reducer]; split <;> exact h
  all_goals exact h

/-- Witness for C7: on the two-enrollment document, a second `ADD_ENROLLMENT` for
`(c1, u1)`, a progress-only `UPDATE_ENROLLMENT` and a `DELETE_COURSE` each keep
the pairs unique. -/
theorem enrollmentPairsUnique_preserved_witness :
    EnrollmentPairsUnique (reducer twoEnrollmentState
      (.ADD_ENROLLMENT (sampleEnrollment "enroll-3" "c1" "u1" 70))) ∧
    EnrollmentPairsUnique (reducer twoEnrollmentState
      (.UPDATE_ENROLLMENT
        { id := some "enroll-2", courseId := none, userId := none, progress := some 80,
          enrolledOn := none })) ∧
    EnrollmentPairsUnique (reducer twoEnrollmentState (.DELETE_COURSE "c1")) :=
  ⟨enrollmentPairsUnique_preserved twoEnrollmentState _ (by decide) (by decide),
   enrollmentPairsUnique_preserved twoEnrollmentState _ (by decide) (by decide),
   enrollmentPairsUnique_preserved twoEnrollmentState _ (by decide) (by decide)⟩

/-! ## Quiz results -/

/-- C8: for every document with at most one quiz result for the pair `(q, st)`
and any two results `r1`, `r2` for that pair, after `submitQuiz r1` followed by
`submitQuiz r2` the document holds exactly one result for `(q, st)`, and it is
`r2`. -/
theorem submitQuiz_twice (s : State) (q st : Id) (r1 r2 : QuizResult)
    (hmost : (resultsFor s q st).length ≤ 1)
    (h1 : r1.quizId = q ∧ r1.studentId = st) (h2 : r2.quizId = q ∧ r2.studentId = st) :
    resultsFor (submitQuiz (submitQuiz s r1) r2) q st = [r2] := by
  obtain ⟨h1q, h1s⟩ := h1
  obtain ⟨h2q, h2s⟩ := h2
  unfold resultsFor at hmost ⊢
  simp only [submitQuiz]
  rw [submitQuiz_quizResults, submitQuiz_quizResults, h1q, h1s, h2q, h2s]
  apply filter_overwriteFirst
  · simp [h2q, h2s]
  · rw [filter_overwriteFirst _ _ _ (by simp [h1q, h1s]) hmost]
    simp

/-- Witness for C8: learner `u1` already has a result for `quiz-1`; two further
submissions leave the second one in its place, the result of `u2` untouched. -/
theorem submitQuiz_twice_witness :
    (submitQuiz (submitQuiz twoResultState (sampleResult "result-1" "quiz-1" "u1" 2))
      (sampleResult "result-1" "quiz-1" "u1" 3)).quizResults =
      [sampleResult "result-1" "quiz-1" "u1" 3, sampleResult "result-2" "quiz-1" "u2" 2] ∧
    resultsFor
      (submitQuiz (submitQuiz twoResultState (sampleResult "result-1" "quiz-1" "u1" 2))
        (sampleResult "result-1" "quiz-1" "u1" 3)) "quiz-1" "u1" =
      [sampleResult "result-1" "quiz-1" "u1" 3] :=
  ⟨by decide,
   submitQuiz_twice twoResultState "quiz-1" "u1" (sampleResult "result-1" "quiz-1" "u1" 2)
    (sampleResult "result-1" "quiz-1" "u1" 3) (by decide) (by decide) (by decide)⟩

/-- C9: the invariant `at most one QuizResult per (quizId, studentId) pair` is
preserved by every action of the reducer; and when `SUBMIT_QUIZ` finds a result
for the payload's pair, the number of results is unchanged and the payload takes
the position of the result it overwrites, every other position being untouched. -/
theorem resultPairsUnique_preserved (s : State) (a : Action) (h : ResultPairsUnique s) :
    ResultPairsUnique (reducer s a) ∧
    ∀ r, a = .SUBMIT_QUIZ r →
      (∃ x ∈ s.quizResults, x.quizId = r.quizId ∧ x.studentId = r.studentId) →
      (reducer s a).quizResults.length = s.quizResults.length ∧
      ∃ i old, s.quizResults[i]? = some old ∧
        (old.quizId = r.quizId ∧ old.studentId = r.studentId) ∧
        (reducer s a).quizResults = s.quizResults.set i r := by
  constructor
  · unfold ResultPairsUnique at h ⊢
    cases a
    case SUBMIT_QUIZ r =>
      rw [submitQuiz_quizResults]
      apply pairwise_overwriteFirst _ _ _ _ _ _ h
      · intro y z hy hyz
        simp only [decide_eq_true_eq] at hy
        rw [← hy.1, ← hy.2]; exact hyz
      · intro y hy
        simpa using hy
    case DELETE_COURSE C => exact h.sublist (List.filter_sublist _)
    case DELETE_QUIZ q => exact h.sublist (List.filter_sublist _)
    case ADD_ENROLLMENT payload => simp only [reducer]; split <;> exact h
    case SAVE_CERTIFICATE payload => simp only [reducer]; split <;> exact h
    all_goals exact h
  · intro r ha hex
    subst ha
    cases hfind : s.quizResults.find?
        (fun x => decide (x.quizId = r.quizId ∧ x.studentId = r.studentId)) with
    | none =>
      rw [List.find?_eq_none] at hfind
      obtain ⟨x, hx, hxp⟩ := hex
      exact absurd (by simpa using hxp) (hfind x hx)
    | some old =>
      obtain ⟨i, hi, hset⟩ := overwriteFirst_of_find?_eq_some _ r old _ hfind
      have hp := List.find?_some hfind
      simp only [decide_eq_true_eq] at hp
      rw [submitQuiz_quizResults, hset]
      exact ⟨by simp, i, old, hi, hp, rfl⟩

/-- Witness for C9: resubmitting for `(quiz-1, u2)` on the two-result document
keeps the pairs unique and overwrites position 1. -/
theorem resultPairsUnique_preserved_witness :
    ResultPairsUnique twoResultState ∧
    ResultPairsUnique
      (reducer twoResultState (.SUBMIT_QUIZ (sampleResult "result-9" "quiz-1" "u2" 3))) ∧
    (reducer twoResultState (.SUBMIT_QUIZ (sampleResult "result-9" "quiz-1" "u2" 3))).quizResults =
      [sampleResult "result-1" "quiz-1" "u1" 1, sampleResult "result-9" "quiz-1" "u2" 3] :=
  ⟨by decide,
   (resultPairsUnique_preserved twoResultState
      (.SUBMIT_QUIZ (sampleResult "result-9" "quiz-1" "u2" 3)) (by decide)).1,
   by decide⟩

/-! ## Certificates -/

/-- C10 as stated fails: saving a payload for the pair `(c1, u1)` that carries its
own id and issuedOn leaves, for that pair, a certificate with the payload's id
and issuedOn, not those of the certificate that existed. -/
theorem saveCertificate_takes_payload_id :
    (∃ x ∈ twoCertificateState.certificates,
      x.courseId = "c1" ∧ x.studentId = "u1" ∧ x.id = "cert-1" ∧
        x.issuedOn = "2024-01-01T00:00:00.000Z") ∧
    ∀ x ∈ (saveCertificate twoCertificateState
        (sampleCertificate "cert-7" "c1" "u1" "2024-03-03T00:00:00.000Z")).certificates,
      x.courseId = "c1" ∧ x.studentId = "u1" →
        x.id ≠ "cert-1" ∧ x.issuedOn ≠ "2024-01-01T00:00:00.000Z" := by
  decide

/-- C10 (amended): when the document holds a certificate for the payload's pair,
`saveCertificate` keeps the number of certificates and puts the payload itself,
with the id and issuedOn it carries, at the position of the first certificate
for the pair (no certificate before that position is for the pair); when none
exists the payload is appended.  The id and issuedOn of the existing certificate
are preserved when the payload is built by `handleSave`, which copies them: the
stored certificate is then the first existing one with the new template. -/
theorem saveCertificate_upsert (s : State) (payload : Certificate) :
    ((∃ x ∈ s.certificates, x.courseId = payload.courseId ∧ x.studentId = payload.studentId) →
      (saveCertificate s payload).certificates.length = s.certificates.length ∧
      ∃ i old, s.certificates[i]? = some old ∧
        (old.courseId = payload.courseId ∧ old.studentId = payload.studentId) ∧
        (∀ j z, j < i → s.certificates[j]? = some z →
          ¬ (z.courseId = payload.courseId ∧ z.studentId = payload.studentId)) ∧
        (saveCertificate s payload).certificates = s.certificates.set i payload) ∧
    ((∀ x ∈ s.certificates, ¬ (x.courseId = payload.courseId ∧ x.studentId = payload.studentId)) →
      (saveCertificate s payload).certificates = s.certificates ++ [payload]) ∧
    (∀ (template : Template) (generatedId : Id) (now : String),
      payload.courseId ≠ "" → payload.studentId ≠ "" →
      (∃ x ∈ s.certificates, x.courseId = payload.courseId ∧ x.studentId = payload.studentId) →
      (handleSave s payload.courseId payload.studentId template generatedId now).certificates.length =
        s.certificates.length ∧
      ∃ i old, s.certificates[i]? = some old ∧
        (old.courseId = payload.courseId ∧ old.studentId = payload.studentId) ∧
        (∀ j z, j < i → s.certificates[j]? = some z →
          ¬ (z.courseId = payload.courseId ∧ z.studentId = payload.studentId)) ∧
        (handleSave s payload.courseId payload.studentId template generatedId now).certificates =
          s.certificates.set i { old with template := template }) := by
  have key : ∀ p : Certificate,
      (∃ x ∈ s.certificates, x.courseId = p.courseId ∧ x.studentId = p.studentId) →
      ∃ old, s.certificates.find?
          (fun x => decide (x.courseId = p.courseId ∧ x.studentId = p.studentId)) = some old ∧
        (old.courseId = p.courseId ∧ old.studentId = p.studentId) ∧
        ∀ c : Certificate, c.courseId = p.courseId → c.studentId = p.studentId →
          ∃ i, s.certificates[i]? = some old ∧
            (∀ j z, j < i → s.certificates[j]? = some z →
              ¬ (z.courseId = p.courseId ∧ z.studentId = p.studentId)) ∧
            (saveCertificate s c).certificates = s.certificates.set i c := by
    intro p hex
    cases hfind : s.certificates.find?
        (fun x => decide (x.courseId = p.courseId ∧ x.studentId = p.studentId)) with
    | none =>
      rw [List.find?_eq_none] at hfind
      obtain ⟨x, hx, hxp⟩ := hex
      exact absurd (by simpa using hxp) (hfind x hx)
    | some old =>
      have hp := List.find?_some hfind
      simp only [decide_eq_true_eq] at hp
      refine ⟨old, rfl, hp, ?_⟩
      intro c hc hs
      obtain ⟨i, hi, hfirst, hset⟩ := overwriteFirst_at_first_match _ c old _ hfind
      refine ⟨i, hi, ?_, ?_⟩
      · intro j z hj hz
        simpa using hfirst j z hj hz
      · simp only [saveCertificate]
        rw [saveCertificate_certificates, hc, hs]
        exact hset
  refine ⟨?_, ?_, ?_⟩
  · intro hex
    obtain ⟨old, _, hp, hall⟩ := key payload hex
    obtain ⟨i, hi, hfirst, hset⟩ := hall payload rfl rfl
    exact ⟨by rw [hset]; simp, i, old, hi, hp, hfirst, hset⟩
  · intro hno
    simp only [saveCertificate]
    rw [saveCertificate_certificates]
    apply overwriteFirst_of_find?_eq_none
    rw [List.find?_eq_none]
    intro x hx
    simpa using hno x hx
  · intro template generatedId now hc hs hex
    obtain ⟨old, hfind, hp, hall⟩ := key payload hex
    have hsave : handleSave s payload.courseId payload.studentId template generatedId now =
        saveCertificate s { old with template := template } := by
      simp only [handleSave, hc, hs, or_self, if_false, hfind]
      rw [← hp.1, ← hp.2]
    obtain ⟨i, hi, hfirst, hset⟩ := hall { old with template := template } hp.1 hp.2
    rw [hsave]
    exact ⟨by rw [hset]; simp, i, old, hi, hp, hfirst, hset⟩

/-- Witness for C10: on the two-certificate document, `saveCertificate` with a
payload for `(c1, u2)` replaces position 1 by the payload, a payload for a new
pair is appended, and `handleSave` for `(c1, u2)` keeps `cert-2` and its date;
where two certificates are for the pair `(c1, u1)`, the first one is replaced. -/
theorem saveCertificate_upsert_witness :
    (saveCertificate twoCertificateState
      (sampleCertificate "cert-7" "c1" "u2" "2024-03-03T00:00:00.000Z")).certificates.length = 2 ∧
    (saveCertificate emptyState
      (sampleCertificate "cert-7" "c1" "u2" "2024-03-03T00:00:00.000Z")).certificates =
      [sampleCertificate "cert-7" "c1" "u2" "2024-03-03T00:00:00.000Z"] ∧
    (handleSave twoCertificateState "c1" "u2" (sampleTemplate "Dean") "cert-8"
      "2024-04-04T00:00:00.000Z").certificates.length = 2 ∧
    (handleSave twoCertificateState "c1" "u2" (sampleTemplate "Dean") "cert-8"
      "2024-04-04T00:00:00.000Z").certificates =
      [sampleCertificate "cert-1" "c1" "u1" "2024-01-01T00:00:00.000Z",
       { id := "cert-2", courseId := "c1", studentId := "u2",
         issuedOn := "2024-01-02T00:00:00.000Z", template := sampleTemplate "Dean" }] ∧
    (saveCertificate samePairCertificateState
      (sampleCertificate "cert-7" "c1" "u1" "2024-03-03T00:00:00.000Z")).certificates =
      [sampleCertificate "cert-7" "c1" "u1" "2024-03-03T00:00:00.000Z",
       sampleCertificate "cert-2" "c1" "u1" "2024-01-02T00:00:00.000Z",
       sampleCertificate "cert-3" "c1" "u2" "2024-01-03T00:00:00.000Z"] :=
  ⟨((saveCertificate_upsert twoCertificateState
      (sampleCertificate "cert-7" "c1" "u2" "2024-03-03T00:00:00.000Z")).1 (by decide)).1,
   (saveCertificate_upsert emptyState
      (sampleCertificate "cert-7" "c1" "u2" "2024-03-03T00:00:00.000Z")).2.1 (by decide),
   ((saveCertificate_upsert twoCertificateState
      (sampleCertificate "cert-7" "c1" "u2" "2024-03-03T00:00:00.000Z")).2.2
      (sampleTemplate "Dean") "cert-8" "2024-04-04T00:00:00.000Z"
      (by decide) (by decide) (by decide)).1,
   by decide, by decide⟩

/-! ## Auxiliary lemmas for updates, grading and trimming -/

/-- A replace-by-key `map` whose key matches no element leaves the list as it is. -/
theorem map_ite_eq_self {α β : Type} [DecidableEq β] (key : α → β) (k : β) (f : α → α)
    (l : List α) (h : ∀ x ∈ l, key x ≠ k) :
    (l.map fun x => if key x = k then f x else x) = l := by
  conv_rhs => rw [← List.map_id l]
  apply List.map_congr_left
  intro x hx
  simp [h x hx]

/-- The accumulators of `evaluateQuiz` after a run of questions, in closed form. -/
theorem foldl_gradeQuestion (toLowerCase : String → String) (responses : Id → Option String)
    (questions : List Question) (acc : Evaluation) :
    questions.foldl (gradeQuestion toLowerCase responses) acc =
      { score := acc.score +
          ((questions.filter (isCorrect toLowerCase responses)).map
            fun q => q.points.getD 1).sum
        totalPoints := acc.totalPoints + (questions.map fun q => q.points.getD 1).sum
        detailed := acc.detailed ++ questions.map fun q =>
          { questionId := q.id, response := (responses q.id).getD "",
            correct := isCorrect toLowerCase responses q } } := by
  induction questions generalizing acc with
  | nil => simp
  | cons q qs ih =>
    rw [List.foldl_cons, ih]
    by_cases hq : isCorrect toLowerCase responses q = true
    · simp [gradeQuestion, hq, add_assoc]
    · simp [gradeQuestion, hq, add_assoc]

theorem evaluateQuiz_detailed (toLowerCase : String → String) (responses : Id → Option String)
    (quiz : Quiz) :
    (evaluateQuiz toLowerCase responses quiz).detailed =
      quiz.questions.map fun q =>
        { questionId := q.id, response := (responses q.id).getD "",
          correct := isCorrect toLowerCase responses q } := by
  simp [evaluateQuiz, foldl_gradeQuestion]

/-- `trim` gives the empty string exactly on the strings made of trimmed
characters only (the empty string among them). -/
theorem trim_eq_empty_iff (s : String) : trim s = "" ↔ ∀ c ∈ s.data, isTrimChar c = true := by
  unfold trim
  constructor
  · intro h
    have h1 : ((s.data.dropWhile isTrimChar).reverse.dropWhile isTrimChar).reverse = [] := by
      have := congrArg String.data h
      simpa using this
    rw [List.reverse_eq_nil_iff] at h1
    by_contra hne
    have hne' : s.data.dropWhile isTrimChar ≠ [] := by
      intro h0
      exact hne (by simpa using List.dropWhile_eq_nil_iff.1 h0)
    obtain ⟨x, xs, hx⟩ := List.exists_cons_of_ne_nil hne'
    have hxp : isTrimChar x ≠ true := by
      have := List.head_dropWhile_not isTrimChar s.data hne'
      simpa [hx] using this
    have hall := List.dropWhile_eq_nil_iff.1 h1 x (by simp [hx])
    exact hxp hall
  · intro h
    have h0 : s.data.dropWhile isTrimChar = [] := List.dropWhile_eq_nil_iff.2 h
    simp [h0]

theorem asciiToLowerCase_eq_empty_iff (s : String) : asciiToLowerCase s = "" ↔ s = "" := by
  unfold asciiToLowerCase
  constructor
  · intro h
    have := congrArg String.data h
    simp at this
    exact String.ext this
  · intro h; subst h; rfl

theorem truthy_normalize (toLowerCase : String → String)
    (hlower : ∀ s, toLowerCase s = "" ↔ s = "") (v : Option String) :
    truthy (normalize toLowerCase v) = true ↔ ∃ a, v = some a ∧ trim a ≠ "" := by
  cases v with
  | none => simp [normalize, truthy]
  | some a => simp [normalize, truthy, hlower]

/-! ## Quiz deletion and updates that match nothing -/

/-- C11: after `deleteQuiz q` there is no quiz with id `q` and no quiz result with
quizId `q`; the quizzes with another id and the results with another quizId are
kept unchanged in order; every other collection and activeUserId are unchanged. -/
theorem deleteQuiz_purges_quiz (state : State) (q : Id) :
    (∀ z ∈ (deleteQuiz state q).quizzes, z.id ≠ q) ∧
    (∀ r ∈ (deleteQuiz state q).quizResults, r.quizId ≠ q) ∧
    (deleteQuiz state q).quizzes = state.quizzes.filter (fun z => decide (z.id ≠ q)) ∧
    (deleteQuiz state q).quizResults =
      state.quizResults.filter (fun r => decide (r.quizId ≠ q)) ∧
    (deleteQuiz state q).users = state.users ∧
    (deleteQuiz state q).courses = state.courses ∧
    (deleteQuiz state q).enrollments = state.enrollments ∧
    (deleteQuiz state q).bundles = state.bundles ∧
    (deleteQuiz state q).certificates = state.certificates ∧
    (deleteQuiz state q).communications = state.communications ∧
    (deleteQuiz state q).activeUserId = state.activeUserId := by
  refine ⟨?_, ?_, rfl, rfl, rfl, rfl, rfl, rfl, rfl, rfl, rfl⟩
  · simp [deleteQuiz, reducer, List.mem_filter]
  · simp [deleteQuiz, reducer, List.mem_filter]

/-- C12: an update whose payload id matches no existing record returns the input
document: `updateEnrollment`, `updateCourse`, `updateBundle` and `updateQuiz`. -/
theorem update_without_match_is_noop (state : State) :
    (∀ p : Enrollment, (∀ e ∈ state.enrollments, e.id ≠ p.id) →
      updateEnrollment state p = state) ∧
    (∀ p : Course, (∀ c ∈ state.courses, c.id ≠ p.id) → updateCourse state p = state) ∧
    (∀ p : Bundle, (∀ b ∈ state.bundles, b.id ≠ p.id) → updateBundle state p = state) ∧
    (∀ p : Quiz, (∀ z ∈ state.quizzes, z.id ≠ p.id) → updateQuiz state p = state) := by
  refine ⟨?_, ?_, ?_, ?_⟩
  · intro p h
    simp only [updateEnrollment, reducer]
    rw [map_ite_eq_self (fun e : Enrollment => e.id) p.id (fun e => spreadEnrollment e p) _ h]
  · intro p h
    simp only [updateCourse, reducer]
    rw [map_ite_eq_self (fun c : Course => c.id) p.id (fun _ => p) _ h]
  · intro p h
    simp only [updateBundle, reducer]
    rw [map_ite_eq_self (fun b : Bundle => b.id) p.id (fun _ => p) _ h]
  · intro p h
    simp only [updateQuiz, reducer]
    rw [map_ite_eq_self (fun z : Quiz => z.id) p.id (fun _ => p) _ h]

/-- Witness for C12: payloads with ids that no record carries, on documents that
hold enrollments, a course, a bundle and quizzes. -/
theorem update_without_match_is_noop_witness :
    updateEnrollment twoEnrollmentState (sampleEnrollment "enroll-9" "c1" "u1" 90) =
      twoEnrollmentState ∧
    updateCourse oneCourseState (sampleCourse "course-9" "Topology") = oneCourseState ∧
    updateBundle oneBundleState (sampleBundle "bundle-9" []) = oneBundleState ∧
    updateQuiz twoQuizState (sampleQuiz "quiz-9" "c1") = twoQuizState :=
  ⟨(update_without_match_is_noop twoEnrollmentState).1 _ (by decide),
   (update_without_match_is_noop oneCourseState).2.1 _ (by decide),
   (update_without_match_is_noop oneBundleState).2.2.1 _ (by decide),
   (update_without_match_is_noop twoQuizState).2.2.2 _ (by decide)⟩

/-! ## Grading -/

/-- C13 as stated fails: against the answer `B` of a multiple-choice question the
responses `b` and ` B ` (with surrounding spaces) are both graded correct. -/
theorem evaluateQuiz_choice_ignores_case_and_space :
    (sampleQuestion "question-1" "multiple-choice" "B" 1).type = "multiple-choice" ∧
    ("b" ≠ "B" ∧
      (evaluateQuiz asciiToLowerCase (exampleResponses "b" "True") exampleQuiz).detailed.map
        (fun d => d.correct) = [true, true]) ∧
    (" B " ≠ "B" ∧
      (evaluateQuiz asciiToLowerCase (exampleResponses " B " "True") exampleQuiz).detailed.map
        (fun d => d.correct) = [true, true]) := by
  decide

/-- C13 (amended): for every question of type multiple-choice or true-false,
`evaluateQuiz` grades the question correct if and only if the response and the
answer are equal after trimming and lower-casing each of them; a missing
response equals only a missing answer. -/
theorem evaluateQuiz_choice_correct_iff (toLowerCase : String → String)
    (responses : Id → Option String) (quiz : Quiz) (i : Nat) (q : Question)
    (hq : quiz.questions[i]? = some q)
    (htype : q.type = "multiple-choice" ∨ q.type = "true-false") :
    ∃ d, (evaluateQuiz toLowerCase responses quiz).detailed[i]? = some d ∧
      d.questionId = q.id ∧
      (d.correct = true ↔
        (responses q.id).map (fun s => toLowerCase (trim s)) =
          q.answer.map (fun s => toLowerCase (trim s))) := by
  refine ⟨{ questionId := q.id
            response := (responses q.id).getD ""
            correct := isCorrect toLowerCase responses q }, ?_, rfl, ?_⟩
  · rw [evaluateQuiz_detailed, List.getElem?_map, hq]; rfl
  · have hne : q.type ≠ "short-answer" := by
      rcases htype with h | h <;> rw [h] <;> decide
    simp only [isCorrect, hne, if_false, decide_eq_true_eq]
    cases responses q.id <;> cases q.answer <;> simp [normalize]

/-- Witness for C13: the second question of the example quiz, answered ` TRUE`. -/
theorem evaluateQuiz_choice_correct_iff_witness :
    ∃ d, (evaluateQuiz asciiToLowerCase (exampleResponses "A" " TRUE") exampleQuiz).detailed[1]? =
        some d ∧
      d.questionId = "question-2" ∧
      (d.correct = true ↔
        (exampleResponses "A" " TRUE" "question-2").map (fun s => asciiToLowerCase (trim s)) =
          (some "True").map (fun s => asciiToLowerCase (trim s))) :=
  evaluateQuiz_choice_correct_iff asciiToLowerCase (exampleResponses "A" " TRUE") exampleQuiz 1
    (sampleQuestion "question-2" "multiple-choice" "True" 2) (by decide) (by decide)

/-- C14: for every short-answer question and every string response,
`evaluateQuiz` grades the question correct if and only if the answer is present,
non-empty after trimming, and equal to the trimmed response after lower-casing
both; a question whose answer is missing, empty or made of white space only is
graded incorrect whatever the response.  The lower-casing function is any
function that, like `String.prototype.toLowerCase`, gives the empty string on
the empty string only. -/
theorem evaluateQuiz_shortAnswer_correct_iff (toLowerCase : String → String)
    (hlower : ∀ s, toLowerCase s = "" ↔ s = "")
    (responses : Id → Option String) (quiz : Quiz) (i : Nat) (q : Question)
    (hq : quiz.questions[i]? = some q) (htype : q.type = "short-answer") :
    ∃ d, (evaluateQuiz toLowerCase responses quiz).detailed[i]? = some d ∧
      d.questionId = q.id ∧
      (∀ r, responses q.id = some r →
        (d.correct = true ↔
          ∃ a, q.answer = some a ∧ trim a ≠ "" ∧
            toLowerCase (trim r) = toLowerCase (trim a))) ∧
      ((q.answer = none ∨ ∃ a, q.answer = some a ∧ ∀ c ∈ a.data, isTrimChar c = true) →
        d.correct = false) := by
  refine ⟨{ questionId := q.id
            response := (responses q.id).getD ""
            correct := isCorrect toLowerCase responses q }, ?_, rfl, ?_, ?_⟩
  · rw [evaluateQuiz_detailed, List.getElem?_map, hq]; rfl
  · intro r hr
    simp only [isCorrect, htype, if_true, Bool.and_eq_true, decide_eq_true_eq,
      truthy_normalize toLowerCase hlower, hr]
    cases hans : q.answer with
    | none => simp [normalize]
    | some a =>
      simp only [normalize, Option.some.injEq]
      constructor
      · rintro ⟨⟨_, a', ha', hne⟩, heq⟩
        cases ha'
        exact ⟨a, rfl, hne, heq⟩
      · rintro ⟨a', ha', hne, heq⟩
        cases ha'
        refine ⟨⟨?_, a, rfl, hne⟩, heq⟩
        refine ⟨r, rfl, ?_⟩
        intro hr0
        have h1 : toLowerCase (trim r) = "" := (hlower _).2 hr0
        rw [heq] at h1
        exact hne ((hlower _).1 h1)
  · intro hans
    have hfalse : truthy (normalize toLowerCase q.answer) = false := by
      rcases hans with h | ⟨a, h, hws⟩
      · simp [h, normalize, truthy]
      · have : trim a = "" := (trim_eq_empty_iff a).2 hws
        simp [h, normalize, truthy, this, (hlower "").2 rfl]
    simp [isCorrect, htype, hfalse]

/-- Witness for C14: the answer ` Paris ` against the response `paris` followed by
two spaces is graded correct. -/
theorem evaluateQuiz_shortAnswer_correct_iff_witness :
    (evaluateQuiz asciiToLowerCase (fun _ => some "paris  ") shortAnswerQuiz).detailed.map
        (fun d => d.correct) = [true] ∧
    ∃ d, (evaluateQuiz asciiToLowerCase (fun _ => some "paris  ") shortAnswerQuiz).detailed[0]? =
        some d ∧
      d.questionId = "question-3" ∧
      (∀ r, some "paris  " = some r →
        (d.correct = true ↔
          ∃ a, some " Paris " = some a ∧ trim a ≠ "" ∧
            asciiToLowerCase (trim r) = asciiToLowerCase (trim a))) ∧
      ((some " Paris " = none ∨ ∃ a, some " Paris " = some a ∧ ∀ c ∈ a.data, isTrimChar c = true) →
        d.correct = false) :=
  ⟨by decide,
   evaluateQuiz_shortAnswer_correct_iff asciiToLowerCase asciiToLowerCase_eq_empty_iff
    (fun _ => some "paris  ") shortAnswerQuiz 0
    (sampleQuestion "question-3" "short-answer" " Paris " 1) (by decide) (by decide)⟩

/-- C15: `evaluateQuiz` returns totalPoints equal to the sum of points over all
questions and score equal to the sum of points over exactly the questions graded
correct, a question without a points value counting 1. -/
theorem evaluateQuiz_score_and_totalPoints (toLowerCase : String → String)
    (responses : Id → Option String) (quiz : Quiz) :
    (evaluateQuiz toLowerCase responses quiz).totalPoints =
      (quiz.questions.map fun q => q.points.getD 1).sum ∧
    (evaluateQuiz toLowerCase responses quiz).score =
      ((quiz.questions.filter fun q => isCorrect toLowerCase responses q).map
        fun q => q.points.getD 1).sum := by
  simp [evaluateQuiz, foldl_gradeQuestion]

/-- C16: on the example quiz (two multiple-choice questions worth 1 and 2 points,
answers `B` and `True`) the responses (`B`, `True`) grade to 3 of 3 and the
responses (`A`, `True`) to 2 of 3. -/
theorem evaluateQuiz_worked_example :
    (evaluateQuiz asciiToLowerCase (exampleResponses "B" "True") exampleQuiz).score = 3 ∧
    (evaluateQuiz asciiToLowerCase (exampleResponses "B" "True") exampleQuiz).totalPoints = 3 ∧
    (evaluateQuiz asciiToLowerCase (exampleResponses "A" "True") exampleQuiz).score = 2 ∧
    (evaluateQuiz asciiToLowerCase (exampleResponses "A" "True") exampleQuiz).totalPoints = 3 := by
  decide

/-! ## Course import -/

/-- C17 as stated fails: importing an object that carries the lists the form
reads and an updatedAt gives a course whose updatedAt is the reading of the
clock at import, not the value of the object; id and createdAt are those of the
object. -/
theorem handleImport_overwrites_updatedAt :
    completeParsedCourse.updatedAt = some "2020-02-02T00:00:00.000Z" ∧
    ∃ next c, handleImport builderState (some completeParsedCourse) "course-9"
        "2024-05-05T10:00:00.000Z" "2024-05-05T10:00:00.000Z" = some next ∧
      next.courses = [sampleCourse "course-1" "Algebra", c] ∧
      c.id = "course-7" ∧ c.createdAt = "2020-01-01T00:00:00.000Z" ∧
      c.updatedAt = "2024-05-05T10:00:00.000Z" ∧
      c.updatedAt ≠ "2020-02-02T00:00:00.000Z" := by
  refine ⟨rfl, importCourse builderState
    (hydrated completeParsedCourse "course-9" "2024-05-05T10:00:00.000Z"
      "2024-05-05T10:00:00.000Z"),
    hydrated completeParsedCourse "course-9" "2024-05-05T10:00:00.000Z"
      "2024-05-05T10:00:00.000Z", ?_⟩
  decide

/-- C17 (amended): for every parsed object that carries prerequisites,
instructors and modules, the import goes through and appends one course whose id
and createdAt each equal the parsed object's value when that field is present,
the generated id and the clock reading being used only for a field that is
absent; its updatedAt is always the clock reading of the import, whatever the
parsed object carries. -/
theorem handleImport_keeps_id_and_createdAt (state : State) (parsed : ParsedCourse)
    (generatedId : Id) (createdNow updatedNow : String)
    (hlists : parsed.prerequisites ≠ none ∧ parsed.instructors ≠ none ∧
      parsed.modules ≠ none) :
    ∃ c, handleImport state (some parsed) generatedId createdNow updatedNow =
        some { state with courses := state.courses ++ [c] } ∧
      (∀ i, parsed.id = some i → c.id = i) ∧
      (parsed.id = none → c.id = generatedId) ∧
      (∀ t, parsed.createdAt = some t → c.createdAt = t) ∧
      (parsed.createdAt = none → c.createdAt = createdNow) ∧
      c.updatedAt = updatedNow := by
  refine ⟨hydrated parsed generatedId createdNow updatedNow, ?_, ?_, ?_, ?_, ?_, rfl⟩
  · have hno : builderRenderThrows
        (importCourse state (hydrated parsed generatedId createdNow updatedNow))
        (hydrated parsed generatedId createdNow updatedNow) = false := by
      simp [builderRenderThrows, hydrated, hlists.1, hlists.2.1, hlists.2.2]
    simp only [handleImport, hno]
    rfl
  · intro i hi; simp [hydrated, hi]
  · intro hi; simp [hydrated, hi]
  · intro t ht; simp [hydrated, ht]
  · intro ht; simp [hydrated, ht]

/-- Witness for C17: the complete object imported into a document that has an
instructor and another course. -/
theorem handleImport_keeps_id_and_createdAt_witness :
    ∃ c, handleImport builderState (some completeParsedCourse) "course-9"
        "2024-05-05T10:00:00.000Z" "2024-05-05T10:00:01.000Z" =
        some { builderState with courses := builderState.courses ++ [c] } ∧
      (∀ i, completeParsedCourse.id = some i → c.id = i) ∧
      (completeParsedCourse.id = none → c.id = "course-9") ∧
      (∀ t, completeParsedCourse.createdAt = some t → c.createdAt = t) ∧
      (completeParsedCourse.createdAt = none → c.createdAt = "2024-05-05T10:00:00.000Z") ∧
      c.updatedAt = "2024-05-05T10:00:01.000Z" :=
  handleImport_keeps_id_and_createdAt builderState completeParsedCourse "course-9"
    "2024-05-05T10:00:00.000Z" "2024-05-05T10:00:01.000Z" (by decide)

/-- C18, the code at the failing input: importing the object with the single
field title `X` never stores a course.  The handler dispatches the import and
puts the hydrated object, which has no modules, in the form; the render that
follows reads `formState.modules.length` and throws, on every document. -/
theorem handleImport_title_only_throws (state : State) (generatedId : Id)
    (createdNow updatedNow : String) :
    (hydrated { emptyParsedCourse with title := some "X" } generatedId createdNow
      updatedNow).modules = none ∧
    handleImport state (some { emptyParsedCourse with title := some "X" }) generatedId
      createdNow updatedNow = none := by
  refine ⟨rfl, ?_⟩
  simp [handleImport, builderRenderThrows, hydrated, emptyParsedCourse]

/-! ## Load and persistence -/

/-- C19: for every parsed stored object and each of the nine keys, the loaded
document holds the parsed value when the key is present and the seed document's
value when it is missing; when nothing is stored or the stored text cannot be
read, the loaded document is the seed document. -/
theorem loadState_per_key (initialState : State) (parsed : ParsedState) :
    ((∀ v, parsed.users = some v → (loadState initialState true (.object parsed)).users = v) ∧
      (parsed.users = none →
        (loadState initialState true (.object parsed)).users = initialState.users)) ∧
    ((∀ v, parsed.courses = some v →
        (loadState initialState true (.object parsed)).courses = v) ∧
      (parsed.courses = none →
        (loadState initialState true (.object parsed)).courses = initialState.courses)) ∧
    ((∀ v, parsed.enrollments = some v →
        (loadState initialState true (.object parsed)).enrollments = v) ∧
      (parsed.enrollments = none →
        (loadState initialState true (.object parsed)).enrollments = initialState.enrollments)) ∧
    ((∀ v, parsed.bundles = some v →
        (loadState initialState true (.object parsed)).bundles = v) ∧
      (parsed.bundles = none →
        (loadState initialState true (.object parsed)).bundles = initialState.bundles)) ∧
    ((∀ v, parsed.quizzes = some v →
        (loadState initialState true (.object parsed)).quizzes = v) ∧
      (parsed.quizzes = none →
        (loadState initialState true (.object parsed)).quizzes = initialState.quizzes)) ∧
    ((∀ v, parsed.quizResults = some v →
        (loadState initialState true (.object parsed)).quizResults = v) ∧
      (parsed.quizResults = none →
        (loadState initialState true (.object parsed)).quizResults = initialState.quizResults)) ∧
    ((∀ v, parsed.certificates = some v →
        (loadState initialState true (.object parsed)).certificates = v) ∧
      (parsed.certificates = none →
        (loadState initialState true (.object parsed)).certificates =
          initialState.certificates)) ∧
    ((∀ v, parsed.communications = some v →
        (loadState initialState true (.object parsed)).communications = v) ∧
      (parsed.communications = none →
        (loadState initialState true (.object parsed)).communications =
          initialState.communications)) ∧
    ((∀ v, parsed.activeUserId = some v →
        (loadState initialState true (.object parsed)).activeUserId = v) ∧
      (parsed.activeUserId = none →
        (loadState initialState true (.object parsed)).activeUserId =
          initialState.activeUserId)) ∧
    loadState initialState true .nothing = initialState ∧
    loadState initialState true .unreadable = initialState := by
  refine ⟨⟨?_, ?_⟩, ⟨?_, ?_⟩, ⟨?_, ?_⟩, ⟨?_, ?_⟩, ⟨?_, ?_⟩, ⟨?_, ?_⟩, ⟨?_, ?_⟩, ⟨?_, ?_⟩,
    ⟨?_, ?_⟩, rfl, rfl⟩ <;> intros <;> simp_all [loadState]

/-- Witness for C19: a stored object that carries only the quiz results; the
loaded document takes them and keeps the quizzes of the seed document. -/
theorem loadState_per_key_witness :
    (loadState twoQuizState true
      (.object { emptyParsedState with
                 quizResults := some [sampleResult "result-7" "quiz-2" "u3" 1] })).quizResults =
      [sampleResult "result-7" "quiz-2" "u3" 1] ∧
    (loadState twoQuizState true
      (.object { emptyParsedState with
                 quizResults := some [sampleResult "result-7" "quiz-2" "u3" 1] })).quizzes =
      twoQuizState.quizzes :=
  ⟨(loadState_per_key twoQuizState
      { emptyParsedState with
        quizResults := some [sampleResult "result-7" "quiz-2" "u3" 1] }).2.2.2.2.2.1.1 _ rfl,
   (loadState_per_key twoQuizState
      { emptyParsedState with
        quizResults := some [sampleResult "result-7" "quiz-2" "u3" 1] }).2.2.2.2.1.2 rfl⟩

/-- C20: loading what the persist effect stored for a document gives back that
document, in every collection and in activeUserId, whatever the seed document. -/
theorem loadState_persisted (initialState state : State) :
    loadState initialState true (persisted state) = state := by
  rfl

/-! ## Auxiliary lemmas for idempotence, score bounds and the derived views -/

theorem spreadField_idem {α : Type} (base over : Option α) :
    spreadField (spreadField base over) over = spreadField base over := by
  cases over <;> rfl

theorem spreadEnrollment_idem (e p : Enrollment) :
    spreadEnrollment (spreadEnrollment e p) p = spreadEnrollment e p := by
  simp [spreadEnrollment, spreadField_idem]

theorem map_replace_idem {α β : Type} [DecidableEq β] (key : α → β) (p : α) (l : List α) :
    ((l.map fun x => if key x = key p then p else x).map
      fun x => if key x = key p then p else x) =
      l.map fun x => if key x = key p then p else x := by
  rw [List.map_map]
  apply List.map_congr_left
  intro x _
  by_cases h : key x = key p <;> simp [h]

theorem sum_filter_bounds {α : Type} (f : α → Int) (c : α → Bool) (l : List α)
    (h : ∀ q ∈ l, 0 ≤ f q) :
    0 ≤ ((l.filter c).map f).sum ∧ ((l.filter c).map f).sum ≤ (l.map f).sum ∧
    (((l.filter c).map f).sum = (l.map f).sum ↔ ∀ q ∈ l, 0 < f q → c q = true) := by
  induction l with
  | nil => simp
  | cons x xs ih =>
    have hx : 0 ≤ f x := h x (List.mem_cons_self _ _)
    obtain ⟨h0, hle, hiff⟩ := ih (fun q hq => h q (List.mem_cons_of_mem _ hq))
    by_cases hc : c x = true
    · simp only [List.filter_cons, hc, if_true, List.map_cons, List.sum_cons, List.mem_cons,
        forall_eq_or_imp, implies_true, true_and]
      refine ⟨by omega, by omega, ?_⟩
      rw [← hiff]; omega
    · simp only [List.filter_cons, hc, List.map_cons, List.sum_cons, List.mem_cons,
        forall_eq_or_imp, Bool.false_eq_true, if_false]
      refine ⟨h0, by omega, ?_⟩
      constructor
      · intro heq
        have hfx : f x = 0 := by omega
        refine ⟨fun hpos => by omega, hiff.1 (by omega)⟩
      · rintro ⟨hx0, hall⟩
        have hfx : ¬ 0 < f x := fun hpos => hx0 hpos
        have := hiff.2 hall
        omega

theorem filter_eraseIdx_of_not {α : Type} (c : α → Bool) (l : List α) (i : Nat) (x : α)
    (hx : l[i]? = some x) (hc : c x = false) : (l.eraseIdx i).filter c = l.filter c := by
  induction l generalizing i with
  | nil => simp at hx
  | cons y ys ih =>
    cases i with
    | zero =>
      simp only [List.getElem?_cons_zero, Option.some.injEq] at hx
      subst hx
      simp [hc]
    | succ i =>
      simp only [List.getElem?_cons_succ] at hx
      simp [List.eraseIdx_cons_succ, List.filter_cons, ih i hx]

theorem isCorrect_of_no_response (toLowerCase : String → String)
    (responses : Id → Option String) (q : Question) (a : String)
    (ha : q.answer = some a) (hr : responses q.id = none) :
    isCorrect toLowerCase responses q = false := by
  by_cases ht : q.type = "short-answer" <;> simp [isCorrect, ht, hr, ha, normalize, truthy]

theorem isUpcoming_iff (parseDate : String → Option Int) (now : Int) (x : UpcomingLesson) :
    isUpcoming parseDate now x = true ↔
      ∃ text time, x.lesson.releaseDate = some text ∧ text ≠ "" ∧
        parseDate text = some time ∧ now ≤ time ∧ releaseTime parseDate x = time := by
  unfold isUpcoming releaseTime
  cases hrd : x.lesson.releaseDate with
  | none => simp
  | some text =>
    cases hp : parseDate text with
    | none => simp [hp]
    | some time => simp [hp]

theorem foldl_add_eq_sum {α : Type} (g : α → ℚ) (l : List α) (a : ℚ) :
    l.foldl (fun total x => total + g x) a = a + (l.map g).sum := by
  induction l generalizing a with
  | nil => simp
  | cons x xs ih => simp [ih, add_assoc]

theorem mathRound_le_iff (x : ℚ) (b : Int) : mathRound x ≤ b ↔ x < (b : ℚ) + 1 / 2 := by
  unfold mathRound
  rw [← Int.lt_add_one_iff, Int.floor_lt]
  push_cast
  constructor <;> intro h <;> linarith

theorem length_reduceOption_map {α β : Type} (f : α → Option β) (l : List α)
    (h : ∀ x ∈ l, (f x).isSome = true) : ((l.map f).reduceOption).length = l.length := by
  induction l with
  | nil => rfl
  | cons x xs ih =>
    have hx := h x (List.mem_cons_self _ _)
    obtain ⟨y, hy⟩ := Option.isSome_iff_exists.1 hx
    simp only [List.map_cons, hy, List.reduceOption_cons_of_some, List.length_cons]
    rw [ih (fun z hz => h z (List.mem_cons_of_mem _ hz))]

theorem sum_progress_bounds (l : List Enrollment)
    (h : ∀ e ∈ l, 0 ≤ e.progress.getD 0 ∧ e.progress.getD 0 ≤ 100) :
    (0 : ℚ) ≤ (l.map fun e => ((e.progress.getD 0 : Int) : ℚ)).sum ∧
    (l.map fun e => ((e.progress.getD 0 : Int) : ℚ)).sum ≤ 100 * (l.length : ℚ) := by
  induction l with
  | nil => simp
  | cons x xs ih =>
    obtain ⟨h0, h1⟩ := ih (fun e he => h e (List.mem_cons_of_mem _ he))
    obtain ⟨hx0, hx1⟩ := h x (List.mem_cons_self _ _)
    have hx0' : (0 : ℚ) ≤ ((x.progress.getD 0 : Int) : ℚ) := by exact_mod_cast hx0
    have hx1' : ((x.progress.getD 0 : Int) : ℚ) ≤ 100 := by exact_mod_cast hx1
    simp only [List.map_cons, List.sum_cons, List.length_cons]
    push_cast
    constructor <;> linarith

/-- When every enrollment of the user names a course of the collection, the
number shown is the rounded mean of the user's progress values (0 without
enrollments), and it lies in [0, 100] when every progress does. -/
theorem averageProgress_of_courses_found (courses : List Course) (enrollments : List Enrollment)
    (userId : Id)
    (hfound : ∀ e ∈ userEnrollments enrollments userId,
      ∃ c ∈ courses, some c.id = e.courseId) :
    averageProgress courses enrollments userId =
      mathRound
        (((userEnrollments enrollments userId).map
            fun e => ((e.progress.getD 0 : Int) : ℚ)).sum /
          ((max 1 (userEnrollments enrollments userId).length : Nat) : ℚ)) ∧
    ((∀ e ∈ userEnrollments enrollments userId,
        0 ≤ e.progress.getD 0 ∧ e.progress.getD 0 ≤ 100) →
      0 ≤ averageProgress courses enrollments userId ∧
      averageProgress courses enrollments userId ≤ 100) := by
  have hlen : (enrolledCourses courses enrollments userId).length =
      (userEnrollments enrollments userId).length := by
    unfold enrolledCourses
    apply length_reduceOption_map
    intro e he
    rw [List.find?_isSome]
    obtain ⟨c, hc, hce⟩ := hfound e he
    exact ⟨c, hc, by simpa using hce⟩
  have heq : averageProgress courses enrollments userId =
      mathRound
        (((userEnrollments enrollments userId).map
            fun e => ((e.progress.getD 0 : Int) : ℚ)).sum /
          ((max 1 (userEnrollments enrollments userId).length : Nat) : ℚ)) := by
    unfold averageProgress
    rw [hlen, foldl_add_eq_sum, zero_add]
  refine ⟨heq, ?_⟩
  intro hrange
  obtain ⟨h0, h1⟩ := sum_progress_bounds _ hrange
  rw [heq]
  have hn : (1 : ℚ) ≤ ((max 1 (userEnrollments enrollments userId).length : Nat) : ℚ) := by
    exact_mod_cast Nat.le_max_left 1 _
  have hn0 : (0 : ℚ) < ((max 1 (userEnrollments enrollments userId).length : Nat) : ℚ) := by
    linarith
  constructor
  · unfold mathRound
    apply Int.floor_nonneg.2
    have := div_nonneg h0 hn0.le
    linarith
  · rw [mathRound_le_iff]
    have hle : ((userEnrollments enrollments userId).map
          fun e => ((e.progress.getD 0 : Int) : ℚ)).sum /
        ((max 1 (userEnrollments enrollments userId).length : Nat) : ℚ) ≤ 100 := by
      rw [div_le_iff₀ hn0]
      have hmax : ((userEnrollments enrollments userId).length : ℚ) ≤
          ((max 1 (userEnrollments enrollments userId).length : Nat) : ℚ) := by
        exact_mod_cast Nat.le_max_right 1 _
      linarith
    refine lt_of_le_of_lt hle ?_
    norm_num

/-! ## Idempotence of the replace-by-id operations -/

/-- C21: applying `updateCourse p` twice gives the same document as applying it
once, and likewise for `updateBundle`, `updateQuiz` and `updateEnrollment`. -/
theorem update_twice_eq_update_once (state : State) :
    (∀ p : Course, updateCourse (updateCourse state p) p = updateCourse state p) ∧
    (∀ p : Bundle, updateBundle (updateBundle state p) p = updateBundle state p) ∧
    (∀ p : Quiz, updateQuiz (updateQuiz state p) p = updateQuiz state p) ∧
    (∀ p : Enrollment,
      updateEnrollment (updateEnrollment state p) p = updateEnrollment state p) := by
  refine ⟨?_, ?_, ?_, ?_⟩
  · intro p
    simp only [updateCourse, reducer]
    rw [map_replace_idem (fun c : Course => c.id) p]
  · intro p
    simp only [updateBundle, reducer]
    rw [map_replace_idem (fun b : Bundle => b.id) p]
  · intro p
    simp only [updateQuiz, reducer]
    rw [map_replace_idem (fun z : Quiz => z.id) p]
  · intro p
    simp only [updateEnrollment, reducer]
    congr 1
    rw [List.map_map]
    apply List.map_congr_left
    intro e _
    by_cases h : e.id = p.id
    · have h2 : (spreadEnrollment e p).id = p.id := by
        simp only [spreadEnrollment, h]
        exact spreadField_self _
      simp [h, h2, spreadEnrollment_idem]
    · simp [h]

/-! ## Average progress of the student dashboard -/

/-- C22, the code at the failing input: learner `u1` has two enrollments, both at
progress 100, one of them in a course that is not in the collection.  The sum
200 is divided by the number of courses found (1), not by the number of
enrollments (2): the value shown is 200, where the rounded mean is 100. -/
theorem averageProgress_orphan_enrollment :
    userEnrollments orphanEnrollmentState.enrollments "u1" =
      orphanEnrollmentState.enrollments ∧
    (∀ e ∈ orphanEnrollmentState.enrollments, e.progress = some 100) ∧
    averageProgress orphanEnrollmentState.courses orphanEnrollmentState.enrollments "u1" = 200 ∧
    mathRound (((100 : Int) + (100 : Int) : ℚ) / ((2 : Nat) : ℚ)) = 100 := by
  refine ⟨by decide, by decide, ?_, ?_⟩
  · have h1 : userEnrollments orphanEnrollmentState.enrollments "u1" =
        [sampleEnrollment "enroll-1" "c1" "u1" 100, sampleEnrollment "enroll-2" "c9" "u1" 100] := by
      decide
    have h2 : enrolledCourses orphanEnrollmentState.courses orphanEnrollmentState.enrollments
        "u1" = [sampleCourse "c1" "Algebra"] := by
      decide
    unfold averageProgress
    rw [h1, h2]
    simp only [List.foldl_cons, List.foldl_nil, sampleEnrollment, Option.getD_some,
      List.length_cons, List.length_nil, mathRound]
    norm_num [Int.floor_eq_iff]
  · unfold mathRound
    norm_num [Int.floor_eq_iff]

/-! ## Upcoming releases -/

/-- C23: the upcoming-releases view contains only lessons of the courses that
have a releaseDate whose time is not earlier than `now`, is sorted by ascending
release time, has at most 4 entries, and omits a qualifying lesson only when it
returns 4 lessons whose release time is no later than that of the omitted one. -/
theorem upcomingReleases_spec (parseDate : String → Option Int) (now : Int)
    (courses : List Course) :
    (∀ x ∈ upcomingReleases parseDate now courses,
      x ∈ lessonEntries courses ∧
      ∃ text time, x.lesson.releaseDate = some text ∧ parseDate text = some time ∧
        now ≤ time ∧ releaseTime parseDate x = time) ∧
    (upcomingReleases parseDate now courses).Pairwise
      (fun a b => releaseTime parseDate a ≤ releaseTime parseDate b) ∧
    (upcomingReleases parseDate now courses).length ≤ 4 ∧
    (∀ x ∈ lessonEntries courses, isUpcoming parseDate now x = true →
      x ∉ upcomingReleases parseDate now courses →
      (upcomingReleases parseDate now courses).length = 4 ∧
      ∀ y ∈ upcomingReleases parseDate now courses,
        releaseTime parseDate y ≤ releaseTime parseDate x) := by
  haveI : IsTotal UpcomingLesson
      (fun a b => releaseTime parseDate a ≤ releaseTime parseDate b) :=
    ⟨fun a b => le_total _ _⟩
  haveI : IsTrans UpcomingLesson
      (fun a b => releaseTime parseDate a ≤ releaseTime parseDate b) :=
    ⟨fun a b c hab hbc => le_trans hab hbc⟩
  have hsorted := List.sorted_insertionSort
    (fun a b => releaseTime parseDate a ≤ releaseTime parseDate b)
    ((lessonEntries courses).filter (isUpcoming parseDate now))
  have hperm := List.perm_insertionSort
    (fun a b => releaseTime parseDate a ≤ releaseTime parseDate b)
    ((lessonEntries courses).filter (isUpcoming parseDate now))
  unfold upcomingReleases
  generalize hs : List.insertionSort
    (fun a b => releaseTime parseDate a ≤ releaseTime parseDate b)
    ((lessonEntries courses).filter (isUpcoming parseDate now)) = sorted at hsorted hperm
  refine ⟨?_, ?_, ?_, ?_⟩
  · intro x hx
    have hmem : x ∈ (lessonEntries courses).filter (isUpcoming parseDate now) :=
      hperm.mem_iff.1 (List.mem_of_mem_take hx)
    rw [List.mem_filter] at hmem
    obtain ⟨text, time, h1, _, h2, h3, h4⟩ := (isUpcoming_iff parseDate now x).1 hmem.2
    exact ⟨hmem.1, text, time, h1, h2, h3, h4⟩
  · exact List.Pairwise.sublist (List.take_sublist 4 sorted) hsorted
  · rw [List.length_take]; exact Nat.min_le_left _ _
  · intro x hx hup hnot
    have hmem : x ∈ sorted := hperm.mem_iff.2 (List.mem_filter.2 ⟨hx, hup⟩)
    rw [← List.take_append_drop 4 sorted] at hmem hsorted
    have hdrop : x ∈ sorted.drop 4 := by
      rcases List.mem_append.1 hmem with h | h
      · exact absurd h hnot
      · exact h
    constructor
    · rw [List.length_take]
      have : 4 < sorted.length := by
        by_contra hle
        rw [List.drop_eq_nil_of_le (by omega)] at hdrop
        simp at hdrop
      omega
    · intro y hy
      exact (List.pairwise_append.1 hsorted).2.2 y hy x hdrop

/-- Witness for C23: of the three sample lessons only the dated one, at time 5, is
upcoming at time 3; at time 6 none is. -/
theorem upcomingReleases_spec_witness :
    (upcomingReleases sampleParseDate 3 [lessonCourse]).map (fun e => e.lesson.id) =
      ["lesson-1"] ∧
    upcomingReleases sampleParseDate 6 [lessonCourse] = [] ∧
    (upcomingReleases sampleParseDate 3 [lessonCourse]).length ≤ 4 :=
  ⟨by decide, by decide, (upcomingReleases_spec sampleParseDate 3 [lessonCourse]).2.2.1⟩

/-! ## Frame of `addEnrollment`, integrity after `deleteCourse`, course ids -/

/-- C24 as stated fails: on a document where the enrollments for `(c1, u1)` and
`(c2, u2)` share the id `enroll-1`, `addEnrollment` for `(c1, u1)` rewrites the
enrollment of `(c2, u2)` at position 1 as well. -/
theorem addEnrollment_rewrites_other_pair :
    sharedEnrollmentIdState.enrollments[1]? = some (sampleEnrollment "enroll-1" "c2" "u2" 20) ∧
    (addEnrollment sharedEnrollmentIdState (sampleEnrollment "enroll-3" "c1" "u1" 0)).enrollments[1]?
      = some (sampleEnrollment "enroll-3" "c1" "u1" 0) := by
  decide

/-- C24 (amended): on a document whose enrollment ids are pairwise distinct,
`addEnrollment` with a payload for the pair `(c, u)` leaves every enrollment of
another pair unchanged at its position. -/
theorem addEnrollment_keeps_other_pairs (s : State) (payload : Enrollment)
    (hids : (s.enrollments.map fun e => e.id).Nodup) (i : Nat) (x : Enrollment)
    (hx : s.enrollments[i]? = some x)
    (hpair : ¬ (x.courseId = payload.courseId ∧ x.userId = payload.userId)) :
    (addEnrollment s payload).enrollments[i]? = some x := by
  simp only [addEnrollment, reducer]
  cases hfind : s.enrollments.find? (fun item =>
      decide (item.courseId = payload.courseId ∧ item.userId = payload.userId)) with
  | none =>
    simp only
    have hlt : i < s.enrollments.length := by
      rcases Nat.lt_or_ge i s.enrollments.length with h | h
      · exact h
      · rw [List.getElem?_eq_none h] at hx; cases hx
    rw [List.getElem?_append_left hlt]
    exact hx
  | some existing =>
    simp only
    have hmem : existing ∈ s.enrollments := List.mem_of_find?_eq_some hfind
    have hpred := List.find?_some hfind
    simp only [decide_eq_true_eq] at hpred
    have hxmem : x ∈ s.enrollments := List.getElem?_mem hx
    have hne : x.id ≠ existing.id := by
      intro hid
      have : x = existing := List.inj_on_of_nodup_map hids hxmem hmem hid
      exact hpair (this ▸ hpred)
    rw [List.getElem?_map, hx]
    simp [hne]

/-- Witness for C24: adding an enrollment for `(c1, u1)` to the two-enrollment
document leaves the enrollment of `(c2, u1)` at position 1. -/
theorem addEnrollment_keeps_other_pairs_witness :
    (addEnrollment twoEnrollmentState (sampleEnrollment "enroll-3" "c1" "u1" 70)).enrollments[1]? =
      some (sampleEnrollment "enroll-2" "c2" "u1" 20) :=
  addEnrollment_keeps_other_pairs twoEnrollmentState (sampleEnrollment "enroll-3" "c1" "u1" 70)
    (by decide) 1 (sampleEnrollment "enroll-2" "c2" "u1" 20) (by decide) (by decide)

/-- C25: after `deleteCourse C` every quiz result of the document has a quizId
equal to the id of a quiz of the document, whatever the input document. -/
theorem deleteCourse_results_reference_quizzes (state : State) (C : Id) :
    ∀ r ∈ (deleteCourse state C).quizResults,
      ∃ q ∈ (deleteCourse state C).quizzes, q.id = r.quizId := by
  intro r hr
  obtain ⟨_, q, hq, hqC, hqr⟩ := (mem_quizResults_deleteCourse state C r).1 hr
  refine ⟨q, ?_, hqr⟩
  simp only [deleteCourse, reducer, List.mem_filter, decide_eq_true_eq]
  exact ⟨hq, hqC⟩

/-- Witness for C25: after deleting `c1` from the two-quiz document, the result
that remains references `quiz-2`, which remains too. -/
theorem deleteCourse_results_reference_quizzes_witness :
    ∃ q ∈ (deleteCourse twoQuizState "c1").quizzes,
      q.id = (sampleResult "result-2" "quiz-2" "u1" 3).quizId :=
  deleteCourse_results_reference_quizzes twoQuizState "c1"
    (sampleResult "result-2" "quiz-2" "u1" 3) (by decide)

/-- C26: on a document whose course ids are pairwise distinct they are pairwise
distinct after `updateCourse p` and after `deleteCourse C`; and `updateCourse p`
leaves the sequence of course ids (length, ids and order) unchanged. -/
theorem updateCourse_deleteCourse_keep_ids_distinct (state : State) (p : Course) (C : Id)
    (h : (courseIds state).Nodup) :
    (courseIds (updateCourse state p)).Nodup ∧
    (courseIds (deleteCourse state C)).Nodup ∧
    courseIds (updateCourse state p) = courseIds state := by
  refine ⟨?_, ?_, courseIds_updateCourse state p⟩
  · simp only [updateCourse]; rw [courseIds_updateCourse]; exact h
  · exact h.sublist (courseIds_deleteCourse_sublist state C)

/-- Witness for C26: updating and deleting `course-1` on the one-course document. -/
theorem updateCourse_deleteCourse_keep_ids_distinct_witness :
    (courseIds (updateCourse oneCourseState (sampleCourse "course-1" "Analysis"))).Nodup ∧
    (courseIds (deleteCourse oneCourseState "course-1")).Nodup ∧
    courseIds (updateCourse oneCourseState (sampleCourse "course-1" "Analysis")) =
      courseIds oneCourseState :=
  updateCourse_deleteCourse_keep_ids_distinct oneCourseState
    (sampleCourse "course-1" "Analysis") "course-1" (by decide)

/-! ## Score bounds, unanswered questions, detail list -/

/-- C27: for every quiz whose questions all have non-negative points (a missing
value counting 1), `evaluateQuiz` returns `0 ≤ score ≤ totalPoints`, and
`score = totalPoints` exactly when every question with positive points is graded
correct. -/
theorem evaluateQuiz_score_bounds (toLowerCase : String → String)
    (responses : Id → Option String) (quiz : Quiz)
    (hpoints : ∀ q ∈ quiz.questions, 0 ≤ q.points.getD 1) :
    0 ≤ (evaluateQuiz toLowerCase responses quiz).score ∧
    (evaluateQuiz toLowerCase responses quiz).score ≤
      (evaluateQuiz toLowerCase responses quiz).totalPoints ∧
    ((evaluateQuiz toLowerCase responses quiz).score =
        (evaluateQuiz toLowerCase responses quiz).totalPoints ↔
      ∀ q ∈ quiz.questions, 0 < q.points.getD 1 → isCorrect toLowerCase responses q = true) := by
  have h := sum_filter_bounds (fun q : Question => q.points.getD 1)
    (isCorrect toLowerCase responses) quiz.questions hpoints
  simpa [evaluateQuiz, foldl_gradeQuestion] using h

/-- Witness for C27: the example quiz with the responses (`A`, `True`). -/
theorem evaluateQuiz_score_bounds_witness :
    (evaluateQuiz asciiToLowerCase (exampleResponses "A" "True") exampleQuiz).score = 2 ∧
    0 ≤ (evaluateQuiz asciiToLowerCase (exampleResponses "A" "True") exampleQuiz).score ∧
    (evaluateQuiz asciiToLowerCase (exampleResponses "A" "True") exampleQuiz).score ≤
      (evaluateQuiz asciiToLowerCase (exampleResponses "A" "True") exampleQuiz).totalPoints :=
  ⟨by decide,
   (evaluateQuiz_score_bounds asciiToLowerCase (exampleResponses "A" "True") exampleQuiz
      (by decide)).1,
   (evaluateQuiz_score_bounds asciiToLowerCase (exampleResponses "A" "True") exampleQuiz
      (by decide)).2.1⟩

/-- C28: for every question whose answer is a string and every response map with
no entry for it, `evaluateQuiz` records the response `''` and grades it
incorrect, and the score is the score of the quiz without that question. -/
theorem evaluateQuiz_unanswered (toLowerCase : String → String)
    (responses : Id → Option String) (quiz : Quiz) (i : Nat) (q : Question) (a : String)
    (hq : quiz.questions[i]? = some q) (ha : q.answer = some a)
    (hr : responses q.id = none) :
    (evaluateQuiz toLowerCase responses quiz).detailed[i]? =
      some { questionId := q.id, response := "", correct := false } ∧
    (evaluateQuiz toLowerCase responses quiz).score =
      (evaluateQuiz toLowerCase responses
        { quiz with questions := quiz.questions.eraseIdx i }).score := by
  have hc := isCorrect_of_no_response toLowerCase responses q a ha hr
  constructor
  · rw [evaluateQuiz_detailed, List.getElem?_map, hq]
    simp [hr, hc]
  · simp only [evaluateQuiz, foldl_gradeQuestion, zero_add]
    rw [filter_eraseIdx_of_not _ _ i q hq hc]

/-- Witness for C28: the second question of the example quiz, left unanswered. -/
theorem evaluateQuiz_unanswered_witness :
    (evaluateQuiz asciiToLowerCase firstOnlyResponses exampleQuiz).detailed[1]? =
      some { questionId := "question-2", response := "", correct := false } ∧
    (evaluateQuiz asciiToLowerCase firstOnlyResponses exampleQuiz).score =
      (evaluateQuiz asciiToLowerCase firstOnlyResponses
        { exampleQuiz with questions := exampleQuiz.questions.eraseIdx 1 }).score :=
  evaluateQuiz_unanswered asciiToLowerCase firstOnlyResponses exampleQuiz 1
    (sampleQuestion "question-2" "multiple-choice" "True" 2) "True"
    (by decide) (by decide) (by decide)

/-! ## Detail list -/

/-- C30: the detail list returned by `evaluateQuiz` has exactly one entry per
question, in the quiz's question order, and the i-th entry carries the i-th
question's id and the learner's response to it (`''` when there is none). -/
theorem evaluateQuiz_detail_per_question (toLowerCase : String → String)
    (responses : Id → Option String) (quiz : Quiz) :
    (evaluateQuiz toLowerCase responses quiz).detailed.length = quiz.questions.length ∧
    (evaluateQuiz toLowerCase responses quiz).detailed.map (fun d => d.questionId) =
      quiz.questions.map (fun q => q.id) ∧
    ∀ (i : Nat) (q : Question), quiz.questions[i]? = some q →
      ∃ d : ResponseDetail, (evaluateQuiz toLowerCase responses quiz).detailed[i]? = some d ∧
        d.questionId = q.id ∧ d.response = (responses q.id).getD "" := by
  refine ⟨?_, ?_, ?_⟩
  · rw [evaluateQuiz_detailed, List.length_map]
  · rw [evaluateQuiz_detailed, List.map_map]; rfl
  · intro i q hq
    refine ⟨{ questionId := q.id
              response := (responses q.id).getD ""
              correct := isCorrect toLowerCase responses q }, ?_, rfl, rfl⟩
    rw [evaluateQuiz_detailed, List.getElem?_map, hq]; rfl

end LMS
